import Mathlib

/-!
# Echoes of Elaria — verification of the combat engine and map generator

Shallow embedding of the game's core logic:

* `src/js/game/combat.js` — the `Combat` class (turn state machine, damage /
  healing / status-effect resolution, boss phases, flee, rewards);
* `src/unnamed/part_001` (`mapgen.js`) — the `MapGenerator` class;
* `src/js/game/persistence.js` — the `Entities` class (character creation
  and leveling).

JavaScript numbers are modelled as `Option ℚ`: `some q` is an ordinary
(finite, exactly-representable) number and `none` stands for `NaN` — which
is also what any arithmetic on an `undefined` field produces, the only way
`undefined` enters arithmetic in the modelled code.  All comparison
operators on `NaN` are false, and `Math.min` / `Math.max` / `Math.floor`
propagate `NaN`, exactly as in JavaScript.

Randomness (`Math.random()`) is modelled by threading an explicit list of
draws; `nextDraw` pops the head (defaulting to `0` when the list is
exhausted, a case no theorem relies on).  UI, audio, logging and `setTimeout`
pacing calls are external I/O with no effect on combat state and are not
modelled; entity objects detached from the session by `cleanup()` (which
nulls `this.player` / `this.enemy`) can still be mutated through stale JS
references, but those mutations are unobservable in the session and in the
already-captured combat result, so the embedding drops them.
-/

/-- A JavaScript number: `none` is `NaN` (or `undefined` entering arithmetic). -/
def JsNum : Type := Option ℚ
deriving DecidableEq

instance : OfNat JsNum n := ⟨some n⟩

/-- Coerce a rational constant to a JS number. -/
def jn (q : ℚ) : JsNum := some q

/-- JS addition: `NaN` propagates. -/
def jadd : JsNum → JsNum → JsNum
  | some a, some b => some (a + b)
  | _, _ => none

/-- JS subtraction: `NaN` propagates. -/
def jsub : JsNum → JsNum → JsNum
  | some a, some b => some (a - b)
  | _, _ => none

/-- JS multiplication: `NaN` propagates (no infinities arise in the modelled code). -/
def jmul : JsNum → JsNum → JsNum
  | some a, some b => some (a * b)
  | _, _ => none

/-- JS division: `NaN` propagates.  Division by zero yields `Infinity` in JS;
in the modelled code the only divisions are by `defense + 100` (positive) and
by a boss's `maxHp`; a zero divisor is mapped to `none`, which shares with
`Infinity` the only property the code observes (`x <= t` on a dead boss is
irrelevant as combat has ended). -/
def jdiv : JsNum → JsNum → JsNum
  | some a, some b => if b = 0 then none else some (a / b)
  | _, _ => none

/-- JS `<`: any comparison with `NaN` is false. -/
def jlt : JsNum → JsNum → Bool
  | some a, some b => if a < b then true else false
  | _, _ => false

/-- JS `<=`: any comparison with `NaN` is false. -/
def jle : JsNum → JsNum → Bool
  | some a, some b => if a ≤ b then true else false
  | _, _ => false

/-- JS `Math.min`: `NaN` propagates. -/
def jmin : JsNum → JsNum → JsNum
  | some a, some b => some (if a ≤ b then a else b)
  | _, _ => none

/-- JS `Math.max`: `NaN` propagates. -/
def jmax : JsNum → JsNum → JsNum
  | some a, some b => some (if a ≤ b then b else a)
  | _, _ => none

/-- JS `Math.floor` on a finite number; `NaN` propagates. -/
def jfloor : JsNum → JsNum
  | some a => some (⌊a⌋ : ℤ)
  | none => none

/-- JS `a || b` on numbers: `b` when `a` is falsy (`0`, `NaN` or `undefined`). -/
def jor : JsNum → JsNum → JsNum
  | some a, b => if a = 0 then b else some a
  | none, b => b

/-- Pop the next `Math.random()` draw off the stream (`0` when exhausted;
no theorem depends on the exhausted case). -/
def nextDraw (l : List ℚ) : ℚ × List ℚ := (l.headD 0, l.tail)

/-- All draws in the stream are in `[0, 1)`, as `Math.random()` guarantees. -/
def okDraws (l : List ℚ) : Prop := ∀ d ∈ l, 0 ≤ d ∧ d < 1

/-! ## Combat data model (`combat.js`) -/

/-- One entry of a skill's `statusEffects` list: `{ type, duration, chance }`. -/
structure SkillStatus where
  type : String
  duration : ℤ
  chance : ℚ
deriving DecidableEq

/-- A rolled status effect queued on a skill result (`{ type, duration }`;
`applySkillResult` reads only these two fields). -/
structure RolledStatus where
  type : String
  duration : ℤ
deriving DecidableEq

/-- A skill object as the combat engine consumes it.  Fields a given template
omits are `none` (= `undefined`). -/
structure Skill where
  name : String
  manaCost : ℚ
  cooldown : ℕ
  currentCooldown : ℕ
  damage : JsNum
  healing : JsNum
  type : String
  scalingFactor : JsNum
  criticalChance : JsNum
  criticalMultiplier : JsNum
  accuracy : JsNum
  statusEffects : List SkillStatus
  unlocked : Bool
deriving DecidableEq

/-- One boss phase: `{ hpThreshold, abilities, message }` (the message is
log-only and not modelled). -/
structure BossPhase where
  hpThreshold : ℚ
  abilities : List String
deriving DecidableEq

/-- `enemy.bossData` as set up by `initializeBoss`:
`{ phases, currentPhase, triggeredPhases }`. -/
structure BossData where
  phases : List BossPhase
  currentPhase : ℕ
  triggeredPhases : Finset ℕ
deriving DecidableEq

instance : Inhabited BossPhase := ⟨⟨0, []⟩⟩

/-- A combat participant.  Player characters (built by
`Entities.createCharacter`) carry `maxHealth` / `maxMana` and all four
primary stats but **no** `maxHp` field; generated enemies and bosses carry
`maxHp` but no `maxHealth` and no primary stats.  Absent numeric fields are
`none`. -/
structure Entity where
  name : String
  type : String
  level : ℚ
  strength : JsNum
  agility : JsNum
  intelligence : JsNum
  vitality : JsNum
  attack : JsNum
  defense : JsNum
  speed : JsNum
  hp : JsNum
  maxHp : JsNum
  maxHealth : JsNum
  maxMana : JsNum
  mana : JsNum
  statusEffects : List (String × ℤ)
  skills : List Skill
  isBoss : Bool
  statusResistance : JsNum
  bossData : Option BossData
  phaseAbilities : List String
  difficulty : JsNum
deriving DecidableEq

/-- `entity.statusEffects.has(name)` on the insertion-ordered `Map`. -/
def hasEffect (e : Entity) (n : String) : Bool :=
  e.statusEffects.any (fun p => p.1 = n)

/-- `Map.set(name, {…, duration})`: replace in place if present, else append. -/
def mapSet (m : List (String × ℤ)) (k : String) (v : ℤ) : List (String × ℤ) :=
  if m.any (fun p => p.1 = k) then
    m.map (fun p => if p.1 = k then (k, v) else p)
  else m ++ [(k, v)]

/-! ## Damage, healing, hit and critical formulas -/

/-- `getRelevantAttackStat` (combat.js 404–411). -/
def getRelevantAttackStat (entity : Entity) (skill : Skill) : JsNum :=
  match skill.type with
  | "physical" => entity.strength
  | "magic" => entity.intelligence
  | "ranged" => entity.agility
  | _ => jor entity.attack entity.strength

/-- `calculateDamage` (combat.js 371–399).  `rv` is the `Math.random()` draw
used for the ±15 % variance (`variance = 0.85 + rv * 0.3`). -/
def calculateDamage (attacker defender : Entity) (skill : Skill) (rv : ℚ) : JsNum :=
  let baseDamage := skill.damage
  let attackStat := getRelevantAttackStat attacker skill
  let defenseStat := defender.defense
  let damage := jadd baseDamage (jmul attackStat skill.scalingFactor)
  let damageReduction := jdiv defenseStat (jadd defenseStat (jn 100))
  let damage := jmul damage (jsub (jn 1) damageReduction)
  let variance := jn (0.85 + rv * 0.3)
  let damage := jmul damage variance
  let damage := if hasEffect attacker "strength_boost" then jmul damage (jn 1.2) else damage
  let damage := if hasEffect attacker "weakness" then jmul damage (jn 0.7) else damage
  let damage := if hasEffect defender "defense_boost" then jmul damage (jn 0.7) else damage
  jmax (jn 1) (jfloor damage)

/-- `calculateHealing` (combat.js 416–431). -/
def calculateHealing (caster : Entity) (skill : Skill) : JsNum :=
  let relevantStat := if skill.type = "magic" then caster.intelligence else caster.vitality
  let healing := jadd skill.healing (jmul relevantStat skill.scalingFactor)
  let healing := if hasEffect caster "blessed" then jmul healing (jn 1.3) else healing
  let healing := if hasEffect caster "curse" then jmul healing (jn 0.7) else healing
  jfloor healing

/-- `checkCritical` (combat.js 436–448); `rc` is the uniform draw. -/
def checkCritical (attacker : Entity) (skill : Skill) (rc : ℚ) : Bool :=
  let critChance := jor skill.criticalChance (jn 0.1)
  let critChance := jadd critChance (jmul attacker.agility (jn 0.001))
  let critChance := if hasEffect attacker "focused" then jmul critChance (jn 1.5) else critChance
  jlt (jn rc) critChance

/-- `checkHit` (combat.js 453–469); `rh` is the uniform draw. -/
def checkHit (attacker defender : Entity) (skill : Skill) (rh : ℚ) : Bool :=
  let hitChance := jor skill.accuracy (jn 0.9)
  let hitChance := jadd hitChance (jmul (jsub attacker.speed defender.speed) (jn 0.01))
  let hitChance := if hasEffect defender "blinded" then jmul hitChance (jn 1.3) else hitChance
  let hitChance := if hasEffect defender "speed_boost" then jmul hitChance (jn 0.8) else hitChance
  jlt (jn rh) (jmax (jn 0.1) (jmin (jn 0.95) hitChance))

/-- `healEntity` (combat.js 497–501), at the entity level:
`actualHealing = Math.min(healing, target.maxHp - target.hp)`,
`target.hp += actualHealing`. -/
def healEntityE (target : Entity) (healing : JsNum) : Entity :=
  let actualHealing := jmin healing (jsub target.maxHp target.hp)
  { target with hp := jadd target.hp actualHealing }

/-! ## Status-effect catalog and boss phase scan -/

/-- The payload of a `this.statusEffects` catalog entry that the engine
actually reads: the default duration (unused once a duration is supplied by
the applier) and the per-turn damage / heal fractions.  Stat-multiplier
payloads (`attack: 1.2` …) are dead data — `calculateDamage` tests effect
*names* directly — and are omitted. -/
structure StatusTemplate where
  duration : ℤ
  damagePerTurn : Option ℚ
  healPerTurn : Option ℚ
deriving DecidableEq

/-- The `this.statusEffects` catalog (combat.js 28–46). -/
def statusCatalog : String → Option StatusTemplate
  | "strength_boost" => some ⟨3, none, none⟩
  | "defense_boost" => some ⟨3, none, none⟩
  | "speed_boost" => some ⟨2, none, none⟩
  | "regeneration" => some ⟨5, none, some 0.1⟩
  | "poison" => some ⟨4, some 0.08, none⟩
  | "weakness" => some ⟨3, none, none⟩
  | "slow" => some ⟨2, none, none⟩
  | "curse" => some ⟨4, none, none⟩
  | "stunned" => some ⟨1, none, none⟩
  | "bleeding" => some ⟨3, some 0.05, none⟩
  | "burning" => some ⟨2, some 0.12, none⟩
  | "frozen" => some ⟨1, none, none⟩
  | _ => none

/-- The `for` loop of `checkBossPhaseTransition` (combat.js 787–804),
scanning indices `i, i+1, …` while they stay inside the phase list; `fuel`
bounds the remaining iterations (callers pass `phases.length - i`, which is
exact). -/
def phaseScanGo (phases : List BossPhase) (triggered : Finset ℕ) (hpPct : JsNum) :
    ℕ → ℕ → Option ℕ
  | _, 0 => none
  | i, fuel + 1 =>
    match phases.get? i with
    | none => none
    | some ph =>
      if jle hpPct (jn ph.hpThreshold) ∧ i ∉ triggered then some i
      else phaseScanGo phases triggered hpPct (i + 1) fuel

/-- The scan of `checkBossPhaseTransition`: from `currentPhase` forward, the
first phase whose threshold is met and whose index is not yet triggered;
`none` when no phase fires. -/
def phaseFireIndex (bd : BossData) (hpPct : JsNum) : Option ℕ :=
  phaseScanGo bd.phases bd.triggeredPhases hpPct bd.currentPhase
    (bd.phases.length - bd.currentPhase)

/-- `checkBossPhaseTransition` (combat.js 781–805) on the boss entity:
fire at most the first qualifying phase, mark it triggered, advance
`currentPhase` past it and append its abilities. -/
def checkBossPhaseTransition (b : Entity) : Entity :=
  match b.bossData with
  | none => b
  | some bd =>
    let hpPct := jdiv b.hp b.maxHp
    match phaseFireIndex bd hpPct with
    | none => b
    | some i =>
      let ph := bd.phases.getD i default
      { b with
        bossData := some { bd with
          currentPhase := i + 1,
          triggeredPhases := insert i bd.triggeredPhases },
        phaseAbilities := b.phaseAbilities ++ ph.abilities }

/-! ## Skill execution -/

/-- The result object built by `executeSkill` (combat.js 241–289); the
`caster` / `target` references are carried by the caller as sides. -/
structure SkillResult where
  damage : JsNum
  healing : JsNum
  statusEffects : List RolledStatus
  critical : Bool
  hit : Bool
deriving DecidableEq

/-- `skill.name.toLowerCase()` (structural character-wise lowering). -/
def lowerName (skill : Skill) : String :=
  ⟨skill.name.data.map Char.toLower⟩

/-- `applySpecialSkillEffects` (combat.js 331–366).  `casterIsEnemy` models
the `result.caster === this.enemy` identity check; the charge telegraph is
UI-only.  Returns the adjusted result and remaining draws. -/
def applySpecialSkillEffects (skill : Skill) (caster : Entity) (casterIsEnemy : Bool)
    (res : SkillResult) (draws : List ℚ) : SkillResult × List ℚ :=
  match lowerName skill with
  | "fireball" =>
    let res := { res with hit := true }
    let (d, rest) := nextDraw draws
    if d < 0.3 then
      ({ res with statusEffects := res.statusEffects ++ [⟨"burning", 2⟩] }, rest)
    else (res, rest)
  | "ice_storm" =>
    if casterIsEnemy && caster.isBoss then
      let (d, rest) := nextDraw draws
      if d < 0.4 then
        ({ res with statusEffects := res.statusEffects ++ [⟨"frozen", 1⟩] }, rest)
      else (res, rest)
    else (res, draws)
  | "shadow_step" => ({ res with hit := true }, draws)
  | _ => (res, draws)

/-- `executeSkill` (combat.js 241–289).  Draw order, as in the source:
variance (inside `calculateDamage`), critical, hit, then one draw per listed
status effect, then the special-effect hook. -/
def executeSkill (caster target : Entity) (skill : Skill) (casterIsEnemy : Bool)
    (draws : List ℚ) : SkillResult × List ℚ :=
  let res : SkillResult := ⟨jn 0, jn 0, [], false, true⟩
  let (res, draws) :=
    if jlt (jn 0) skill.damage then
      let (rv, draws) := nextDraw draws
      let damage := calculateDamage caster target skill rv
      let (rc, draws) := nextDraw draws
      let critical := checkCritical caster skill rc
      let (rh, draws) := nextDraw draws
      let hit := checkHit caster target skill rh
      let damage := if critical then jmul damage (jor skill.criticalMultiplier (jn 2.0)) else damage
      let damage := if hit then damage else jn 0
      ({ res with damage := damage, critical := critical, hit := hit }, draws)
    else (res, draws)
  let res := if jlt (jn 0) skill.healing then { res with healing := calculateHealing caster skill } else res
  let (rolled, draws) := skill.statusEffects.foldl
    (fun (acc : List RolledStatus × List ℚ) eff =>
      let (d, rest) := nextDraw acc.2
      if d < eff.chance then (acc.1 ++ [⟨eff.type, eff.duration⟩], rest) else (acc.1, rest))
    ([], draws)
  let res := { res with statusEffects := rolled }
  applySpecialSkillEffects skill caster casterIsEnemy res draws

/-! ## The combat session -/

/-- The reward bundle of `calculateCombatRewards` (combat.js 938–961);
items are represented by their template names. -/
structure Rewards where
  gold : ℚ
  items : List String
  essences : Option ℕ
deriving DecidableEq

/-- The `results` object `endCombat` hands to the stashed resolver. -/
structure CombatResult where
  victory : Bool
  reason : String
  turnCount : ℕ
  experience : Option JsNum
  rewards : Option Rewards
deriving DecidableEq

/-- The mutable state of the `Combat` instance during one encounter.
`player` / `enemy` are `none` exactly when `cleanup()` has nulled them;
`resolved` captures the (first) value passed to `combatResolve`. -/
structure Session where
  isActive : Bool
  currentTurn : String
  turnCounter : ℕ
  player : Option Entity
  enemy : Option Entity
  isBoss : Bool
  allowFlee : Bool
  resolved : Option CombatResult
deriving DecidableEq

/-- Which of the two participant references a mutation goes through. -/
inductive Side where
  | player
  | enemy
deriving DecidableEq

def getSide (s : Session) : Side → Option Entity
  | .player => s.player
  | .enemy => s.enemy

def Side.other : Side → Side
  | .player => .enemy
  | .enemy => .player

/-- Mutate the entity a side refers to.  When the side has been detached by
`cleanup()` the JS mutation hits a stale object invisible to the session and
to the captured result, so it is dropped. -/
def updateSide (s : Session) (side : Side) (f : Entity → Entity) : Session :=
  match side with
  | .player => match s.player with
    | some p => { s with player := some (f p) }
    | none => s
  | .enemy => match s.enemy with
    | some e => { s with enemy := some (f e) }
    | none => s

/-- `randomInt(min, max)` = `Math.floor(Math.random() * (max - min + 1)) + min`. -/
def randomIntN (lo hi : ℕ) (d : ℚ) : ℕ :=
  (⌊d * ((hi : ℚ) - lo + 1)⌋).toNat + lo

/-- `randomChoice(array)` = `array[Math.floor(Math.random() * array.length)]`
(callers always supply a non-empty array and an in-range draw). -/
def randomChoice (l : List String) (d : ℚ) : String :=
  l.getD (⌊d * (l.length : ℚ)⌋).toNat ""

/-- `calculateExperienceGain` (combat.js 927–933). -/
def calculateExperienceGain (enemy : Entity) : JsNum :=
  let baseExp := jn (enemy.level * 10)
  let difficultyBonus := jfloor (jmul baseExp (jor enemy.difficulty (jn 1.0)))
  let bossBonus := if enemy.isBoss then baseExp else jn 0
  jadd (jadd baseExp difficultyBonus) bossBonus

/-- `calculateCombatRewards` (combat.js 938–961): gold roll, drop roll,
boss trophy and essences. -/
def calculateCombatRewards (enemy : Entity) (draws : List ℚ) : Rewards × List ℚ :=
  let (dg, draws) := nextDraw draws
  let gold := (randomIntN 5 15 dg : ℚ) + enemy.level
  let dropChance : ℚ := if enemy.isBoss then 0.8 else 0.3
  let (dd, draws) := nextDraw draws
  let (items, draws) :=
    if dd < dropChance then
      let (di, draws) := nextDraw draws
      ([randomChoice ["health_potion", "mana_potion", "strength_elixir"] di], draws)
    else ([], draws)
  if enemy.isBoss then
    let (de, draws) := nextDraw draws
    ({ gold := gold, items := items ++ ["boss_trophy"], essences := some (randomIntN 2 5 de) }, draws)
  else
    ({ gold := gold, items := items, essences := none }, draws)

/-- `endCombat` (combat.js 890–922): deactivate, snapshot the results
(experience and rewards only on victory, consuming reward draws), run
`cleanup()` (null both entities, reset turn fields) and resolve the stashed
promise — only the first resolution is observable. -/
def endCombat (victory : Bool) (reason : String) (s : Session) (draws : List ℚ) :
    Session × List ℚ :=
  let s1 := { s with isActive := false }
  let (experience, rewards, draws) :=
    if victory then
      match s1.enemy with
      | some e =>
        let exp := calculateExperienceGain e
        let (rw, draws) := calculateCombatRewards e draws
        (some exp, some rw, draws)
      | none => (some none, none, draws)
    else (none, none, draws)
  let res : CombatResult :=
    { victory := victory, reason := reason, turnCount := s1.turnCounter,
      experience := experience, rewards := rewards }
  let s2 := { s1 with player := none, enemy := none, currentTurn := "player", turnCounter := 0 }
  ({ s2 with resolved := match s2.resolved with | some r => some r | none => some res }, draws)

/-- `dealDamage` (combat.js 474–492): floor hp at 0, end combat on death
(victory iff the enemy died), then the boss phase check. -/
def dealDamage (s : Session) (side : Side) (damage : JsNum) (draws : List ℚ) :
    Session × List ℚ :=
  let s1 := updateSide s side (fun t => { t with hp := jmax (jn 0) (jsub t.hp damage) })
  match getSide s1 side with
  | none => (s1, draws)
  | some t =>
    if jle t.hp (jn 0) then
      match side with
      | .player => endCombat false "Player defeated" s1 draws
      | .enemy => endCombat true "Enemy defeated" s1 draws
    else
      if t.isBoss && t.bossData.isSome then
        (updateSide s1 side checkBossPhaseTransition, draws)
      else (s1, draws)

/-- `healEntity` (combat.js 497–501) through a session side. -/
def healEntity (s : Session) (side : Side) (healing : JsNum) : Session :=
  updateSide s side (fun t => healEntityE t healing)

/-- `applyStatusEffect` (combat.js 506–520): one resistance draw, then
`Map.set(type, { …, duration })`. -/
def applyStatusEffect (s : Session) (side : Side) (effectType : String) (duration : ℤ)
    (draws : List ℚ) : Session × List ℚ :=
  let resistance := match getSide s side with
    | some t => jor t.statusResistance (jn 0)
    | none => jor none (jn 0)
  let (d, rest) := nextDraw draws
  if jlt (jn d) resistance then (s, rest)
  else
    (updateSide s side (fun t => { t with statusEffects := mapSet t.statusEffects effectType duration }), rest)

/-- `skill.currentCooldown = skill.cooldown` on the caster’s stored skill
object at index `i` (the write `applySkillResult` performs for the player
path). -/
def setSkillCooldownAt (sks : List Skill) (i : ℕ) : List Skill :=
  sks.mapIdx (fun j sk => if j = i then { sk with currentCooldown := sk.cooldown } else sk)

/-- `applySkillResult` (combat.js 294–326).  `casterSide` identifies the
acting entity; the target is always the other side (the `target` reference
built in `executeSkill`'s callers).  `skillIdx` locates the caster's stored
skill object for the cooldown write — the enemy AI passes freshly built
skill literals whose cooldown write is lost, modelled by `none`. -/
def applySkillResult (s : Session) (casterSide : Side) (skillIdx : Option ℕ)
    (skill : Skill) (res : SkillResult) (draws : List ℚ) : Session × List ℚ :=
  let targetSide := casterSide.other
  let (s, draws) :=
    if jlt (jn 0) res.damage && res.hit then dealDamage s targetSide res.damage draws
    else (s, draws)
  let s := if jlt (jn 0) res.healing then healEntity s casterSide res.healing else s
  let (s, draws) := res.statusEffects.foldl
    (fun (acc : Session × List ℚ) eff => applyStatusEffect acc.1 targetSide eff.type eff.duration acc.2)
    (s, draws)
  let s := updateSide s casterSide (fun c => { c with mana := jsub c.mana (jn skill.manaCost) })
  let s := match skillIdx with
    | some i => updateSide s casterSide (fun c => { c with skills := setSkillCooldownAt c.skills i })
    | none => s
  (s, draws)

/-- `canUseSkill` (combat.js 216–236): mana, cooldown, incapacitation.
The log messages it emits are UI-only. -/
def canUseSkill (player : Entity) (skill : Skill) : Bool :=
  if jlt player.mana (jn skill.manaCost) then false
  else if skill.currentCooldown > 0 then false
  else if hasEffect player "stunned" || hasEffect player "frozen" then false
  else true

/-- `applyStatusEffectTick` (combat.js 744–763): damage-over-time then
heal-over-time, both as a fraction of the owner's `maxHp` (a player
character has no such field, so the JS product is `NaN`). -/
def applyStatusEffectTick (s : Session) (side : Side) (effectType : String)
    (draws : List ℚ) : Session × List ℚ :=
  match statusCatalog effectType with
  | none => (s, draws)
  | some t =>
    let (s, draws) :=
      match t.damagePerTurn with
      | some dpt =>
        match getSide s side with
        | some ent => dealDamage s side (jfloor (jmul ent.maxHp (jn dpt))) draws
        | none => (s, draws)
      | none => (s, draws)
    match t.healPerTurn with
    | some hpt =>
      (match getSide s side with
       | some ent => healEntity s side (jfloor (jmul ent.maxHp (jn hpt)))
       | none => s, draws)
    | none => (s, draws)

/-- Decrement one stored effect's duration on the side's entity. -/
def decrementEffect (s : Session) (side : Side) (effectType : String) : Session :=
  updateSide s side (fun ent =>
    { ent with
      statusEffects := ent.statusEffects.map (fun p => if p.1 = effectType then (p.1, p.2 - 1) else p) })

/-- `processStatusEffects` (combat.js 718–739): iterate the owner's effect
map in insertion order — tick, decrement — then delete the expired entries.
Dereferencing a nulled entity reference throws (`error` carries the state at
the throw). -/
def processStatusEffects (s : Session) (side : Side) (draws : List ℚ) :
    Except (Session × List ℚ) (Session × List ℚ) :=
  match getSide s side with
  | none => .error (s, draws)
  | some ent =>
    let keys := ent.statusEffects.map (fun p => p.1)
    let (s, draws) := keys.foldl
      (fun (acc : Session × List ℚ) k =>
        let (s, draws) := applyStatusEffectTick acc.1 side k acc.2
        (decrementEffect s side k, draws))
      (s, draws)
    let s := updateSide s side (fun ent =>
      { ent with statusEffects := ent.statusEffects.filter (fun p => !(p.2 ≤ 0)) })
    .ok (s, draws)

/-- `updateCooldowns` (combat.js 768–776). -/
def skillCooldownDecay (sk : Skill) : Skill :=
  if sk.currentCooldown > 0 then { sk with currentCooldown := sk.currentCooldown - 1 } else sk

def updateCooldowns (s : Session) (side : Side) : Session :=
  updateSide s side (fun ent => { ent with skills := ent.skills.map skillCooldownDecay })

/-- `endPlayerTurn` (combat.js 525–542): tick the player's effects, decay
the player's cooldowns, hand the turn to the enemy.  (The delayed
`executeEnemyTurn` is scheduled asynchronously and is outside this step.)
Throws — `error` — when `this.player` has been nulled by `cleanup()`. -/
def endPlayerTurn (s : Session) (draws : List ℚ) :
    Except (Session × List ℚ) (Session × List ℚ) :=
  match processStatusEffects s .player draws with
  | .error e => .error e
  | .ok (s, draws) =>
    let s := updateCooldowns s .player
    .ok ({ s with currentTurn := "enemy" }, draws)

/-- `useSkill` (combat.js 181–211).  `.error` is an exception escaping the
method (possible only on a session whose `player` was already nulled, which
the engine never produces while `isActive`); inside the `try` block every
thrown exception is caught and turned into `false`, keeping all mutations
made before the throw. -/
def useSkill (s : Session) (skillIndex : ℕ) (draws : List ℚ) :
    Except Session (Bool × Session × List ℚ) :=
  if ¬s.isActive ∨ s.currentTurn ≠ "player" then .ok (false, s, draws)
  else
    match s.player with
    | none => .error s
    | some p =>
      match p.skills.get? skillIndex with
      | none => .ok (false, s, draws)
      | some skill =>
        if ¬canUseSkill p skill then .ok (false, s, draws)
        else
          match s.enemy with
          | none => .ok (false, s, draws)
          | some e =>
            let (res, draws) := executeSkill p e skill false draws
            let (s, draws) := applySkillResult s .player (some skillIndex) skill res draws
            match endPlayerTurn s draws with
            | .ok (s, draws) => .ok (true, s, draws)
            | .error (s, draws) => .ok (false, s, draws)

/-- `attemptFlee` (combat.js 867–885): refuse when fleeing is disallowed;
otherwise succeed on a draw strictly below the fixed 0.7 chance, resolving
combat as a fled defeat-class outcome; on failure the attempt consumes the
player's turn via `endPlayerTurn`.  Not wrapped in a `try`, so an
`endPlayerTurn` throw escapes (`error`). -/
def attemptFlee (s : Session) (draws : List ℚ) :
    Except (Session × List ℚ) (Bool × Session × List ℚ) :=
  if ¬s.allowFlee then .ok (false, s, draws)
  else
    let (d, rest) := nextDraw draws
    if d < 0.7 then
      let (s, rest) := endCombat false "Player fled" s rest
      .ok (true, s, rest)
    else
      match endPlayerTurn s rest with
      | .ok (s, rest) => .ok (false, s, rest)
      | .error e => .error e

/-! ## Map generator (`mapgen.js`, src/unnamed/part_001)

`selectNodeType` spreads `this.nodeTypes` with `{ ...this.nodeTypes }`, a
*shallow* copy: the per-type objects are shared, so `weights.combat.weight
*= 1.5` writes through to the catalog.  The embedding therefore threads the
catalog state through every call that can touch it. -/

/-- The six `weight` numbers of the `this.nodeTypes` catalog. -/
structure NodeTypeWeights where
  combat : ℚ
  event : ℚ
  resource : ℚ
  merchant : ℚ
  rest : ℚ
  boss : ℚ
deriving DecidableEq

/-- The catalog's initial weights (mapgen 59–96). -/
def initialNodeTypeWeights : NodeTypeWeights :=
  { combat := 40, event := 25, resource := 20, merchant := 10, rest := 15, boss := 0 }

/-- `Object.entries(weights)` in the object's insertion order. -/
def weightEntries (w : NodeTypeWeights) : List (String × ℚ) :=
  [("combat", w.combat), ("event", w.event), ("resource", w.resource),
   ("merchant", w.merchant), ("rest", w.rest), ("boss", w.boss)]

/-- The walk inside `weightedRandomChoice` (mapgen 655–668): subtract each
weight; return the first key that drives the remainder to `≤ 0`; fall back
to `Object.keys(weights)[0]` (= `"combat"`). -/
def wrcWalk : List (String × ℚ) → ℚ → String
  | [], _ => "combat"
  | (k, wt) :: rest, r => if r - wt ≤ 0 then k else wrcWalk rest (r - wt)

/-- `weightedRandomChoice(weights)` with its uniform draw `d`. -/
def weightedRandomChoice (w : NodeTypeWeights) (d : ℚ) : String :=
  let total := (weightEntries w).foldl (fun acc p => acc + p.2) 0
  wrcWalk (weightEntries w) (d * total)

/-- `selectNodeType` (mapgen 401–425).  The positional adjustments are the
in-place writes through the shallow copy; the function returns the chosen
type together with the catalog as it stands afterwards.  Index comparisons
are over JS integers, hence `ℤ`. -/
def selectNodeType (nodeIndex regionLength : ℕ) (w : NodeTypeWeights) (d : ℚ) :
    String × NodeTypeWeights :=
  let w := if nodeIndex = 0 then
      { w with combat := w.combat * 1.5, event := w.event * 1.2, rest := w.rest * 0.5 }
    else w
  let w := if 0 < nodeIndex ∧ (nodeIndex : ℤ) < (regionLength : ℤ) - 2 then
      { w with merchant := w.merchant * 1.5, resource := w.resource * 1.3 }
    else w
  let w := if (regionLength : ℤ) - 2 ≤ (nodeIndex : ℤ) then
      { w with merchant := w.merchant * 0.3, combat := w.combat * 1.3 }
    else w
  (weightedRandomChoice w d, w)

/-- A region's static template (mapgen 11–56); only the fields the modelled
paths read. -/
structure RegionTemplate where
  name : String
  enemyPool : List String
  bossPool : List String
  resourcePool : List String
  eventPool : List String
  difficulty : ℚ
deriving DecidableEq

def forestTemplate : RegionTemplate :=
  { name := "Whispering Forest",
    enemyPool := ["goblin", "wolf", "spider", "treant"],
    bossPool := ["forest_guardian", "elder_treant"],
    resourcePool := ["herbs", "wood"],
    eventPool := ["fairy_ring", "abandoned_camp", "ancient_tree"],
    difficulty := 1.0 }

def desertTemplate : RegionTemplate :=
  { name := "Scorching Wastes",
    enemyPool := ["scorpion", "bandit", "sand_wraith", "mummy"],
    bossPool := ["desert_king", "sand_dragon"],
    resourcePool := ["ore", "gems"],
    eventPool := ["oasis", "buried_treasure", "sandstorm"],
    difficulty := 1.2 }

def iceTemplate : RegionTemplate :=
  { name := "Frozen Peaks",
    enemyPool := ["ice_wolf", "frost_giant", "ice_elemental", "yeti"],
    bossPool := ["ice_queen", "frost_dragon"],
    resourcePool := ["ice_crystal", "frost_herb"],
    eventPool := ["ice_cave", "frozen_lake", "avalanche"],
    difficulty := 1.4 }

def ruinsTemplate : RegionTemplate :=
  { name := "Ancient Ruins",
    enemyPool := ["skeleton", "ghost", "gargoyle", "lich"],
    bossPool := ["ancient_king", "shadow_lord"],
    resourcePool := ["essences", "ancient_relic"],
    eventPool := ["magic_altar", "trapped_chest", "spirit_encounter"],
    difficulty := 1.6 }

/-- `Object.keys(this.regions)` in insertion order. -/
def regionKeys : List String := ["forest", "desert", "ice", "ruins"]

/-- `this.regions[key]` — total on `regionKeys`, which is all the generator
ever looks up (an unknown key would crash in JS). -/
def regionsTable : String → RegionTemplate
  | "desert" => desertTemplate
  | "ice" => iceTemplate
  | "ruins" => ruinsTemplate
  | _ => forestTemplate

/-- The base stat block of an `enemyTemplates` entry (mapgen 434–458) and of
a `bossTemplates` entry (mapgen 479–520). -/
structure EnemyTemplate where
  name : String
  hp : ℚ
  attack : ℚ
  defense : ℚ
  speed : ℚ
  abilities : List String
deriving DecidableEq

def enemyTemplates : String → Option EnemyTemplate
  | "goblin" => some ⟨"Goblin Scout", 35, 8, 2, 6, []⟩
  | "wolf" => some ⟨"Forest Wolf", 45, 12, 4, 8, []⟩
  | "spider" => some ⟨"Giant Spider", 30, 10, 1, 7, []⟩
  | "treant" => some ⟨"Young Treant", 70, 15, 8, 3, []⟩
  | "scorpion" => some ⟨"Desert Scorpion", 40, 14, 6, 5, []⟩
  | "bandit" => some ⟨"Desert Bandit", 50, 11, 3, 6, []⟩
  | "sand_wraith" => some ⟨"Sand Wraith", 35, 16, 2, 9, []⟩
  | "mummy" => some ⟨"Ancient Mummy", 60, 13, 7, 4, []⟩
  | "ice_wolf" => some ⟨"Frost Wolf", 55, 14, 5, 7, []⟩
  | "frost_giant" => some ⟨"Frost Giant", 90, 20, 12, 2, []⟩
  | "ice_elemental" => some ⟨"Ice Elemental", 40, 18, 3, 8, []⟩
  | "yeti" => some ⟨"Mountain Yeti", 75, 16, 10, 5, []⟩
  | "skeleton" => some ⟨"Ancient Skeleton", 45, 12, 8, 4, []⟩
  | "ghost" => some ⟨"Restless Ghost", 30, 20, 1, 10, []⟩
  | "gargoyle" => some ⟨"Stone Gargoyle", 80, 18, 15, 3, []⟩
  | "lich" => some ⟨"Minor Lich", 65, 22, 6, 6, []⟩
  | _ => none

def bossTemplates : String → Option EnemyTemplate
  | "forest_guardian" => some ⟨"Forest Guardian", 150, 25, 15, 5, ["nature_heal", "root_entangle", "forest_fury"]⟩
  | "elder_treant" => some ⟨"Elder Treant", 200, 30, 20, 3, ["bark_armor", "branch_slam", "forest_blessing"]⟩
  | "desert_king" => some ⟨"Desert King", 180, 28, 12, 6, ["sand_storm", "mirage", "scorching_strike"]⟩
  | "sand_dragon" => some ⟨"Sand Dragon", 250, 35, 18, 7, ["sand_breath", "dune_dive", "desert_rage"]⟩
  | "ice_queen" => some ⟨"Ice Queen", 220, 32, 16, 4, ["frost_armor", "ice_storm", "frozen_heart"]⟩
  | "frost_dragon" => some ⟨"Frost Dragon", 300, 40, 22, 6, ["ice_breath", "blizzard", "absolute_zero"]⟩
  | "ancient_king" => some ⟨"Ancient King", 280, 38, 25, 5, ["royal_command", "ancient_curse", "kingly_wrath"]⟩
  | "shadow_lord" => some ⟨"Shadow Lord", 200, 45, 10, 9, ["shadow_step", "dark_magic", "void_strike"]⟩
  | _ => none

/-- A generated enemy / boss stat block (the object literal of
`generateEnemy` / `generateBoss`). -/
structure EnemyM where
  name : String
  hp : ℤ
  maxHp : ℤ
  attack : ℤ
  defense : ℤ
  speed : ℚ
  level : ℤ
  type : String
  isBoss : Bool
  abilities : List String
deriving DecidableEq

instance : Inhabited EnemyTemplate := ⟨⟨"", 0, 0, 0, 0, []⟩⟩

/-- `generateEnemy` (mapgen 430–473): pick a template from the region's
pool (one draw), scale by difficulty. -/
def generateEnemy (tmpl : RegionTemplate) (difficulty : ℚ) (draws : List ℚ) :
    EnemyM × List ℚ :=
  let (d, draws) := nextDraw draws
  let enemyType := randomChoice tmpl.enemyPool d
  let t := (enemyTemplates enemyType).getD ((enemyTemplates "goblin").getD default)
  ({ name := t.name, hp := ⌊t.hp * difficulty⌋, maxHp := ⌊t.hp * difficulty⌋,
     attack := ⌊t.attack * difficulty⌋, defense := ⌊t.defense * difficulty⌋,
     speed := t.speed, level := max 1 ⌊difficulty * 5⌋, type := enemyType,
     isBoss := false, abilities := [] }, draws)

/-- `generateBoss` (mapgen 478–535): scale the boss template (no draws). -/
def generateBoss (bossType : String) (difficulty : ℚ) : EnemyM :=
  let t := (bossTemplates bossType).getD ((bossTemplates "forest_guardian").getD default)
  { name := t.name, hp := ⌊t.hp * difficulty⌋, maxHp := ⌊t.hp * difficulty⌋,
    attack := ⌊t.attack * difficulty⌋, defense := ⌊t.defense * difficulty⌋,
    speed := t.speed, level := max 10 ⌊difficulty * 10⌋, type := bossType,
    isBoss := true, abilities := t.abilities }

/-- A node's type-specific payload. -/
inductive NodePayload where
  | combatP (enemy : EnemyM)
  | eventP (key : String) (fallback : Bool)
  | resourceP (resourceType : String) (amount : ℕ)
  | merchantP (itemCount : ℕ) (haggle : ℚ)
  | restP (siteName : String)
  | bossP (boss : EnemyM)
  | nothingP
deriving DecidableEq

/-- A generated map node. -/
structure NodeM where
  type : String
  difficulty : ℚ
  payload : NodePayload
  regionKey : String
  localIndex : ℕ
  globalIndex : ℕ
  regionIndex : ℕ
deriving DecidableEq

/-- `generateEvent` (mapgen 540–567): one pool draw; unknown keys fall back
to the generic event (of the forest pool only `ancient_tree` is unknown,
and several desert / ice / ruins keys). -/
def generateEvent (tmpl : RegionTemplate) (draws : List ℚ) : NodePayload × List ℚ :=
  let (d, draws) := nextDraw draws
  let key := randomChoice tmpl.eventPool d
  let known := ["fairy_ring", "abandoned_camp", "oasis", "ice_cave", "magic_altar"]
  (.eventP key (¬known.contains key), draws)

/-- `generateResource` (mapgen 572–581): pool draw then `randomInt(2,5)`. -/
def generateResource (tmpl : RegionTemplate) (draws : List ℚ) : NodePayload × List ℚ :=
  let (d1, draws) := nextDraw draws
  let resourceType := randomChoice tmpl.resourcePool d1
  let (d2, draws) := nextDraw draws
  (.resourceP resourceType (randomIntN 2 5 d2), draws)

/-- `generateMerchant` (mapgen 586–612): `randomInt(3,6)` identical potions,
then the haggle multiplier `randomFloat(0.8, 1.2)`. -/
def generateMerchant (draws : List ℚ) : NodePayload × List ℚ :=
  let (d1, draws) := nextDraw draws
  let itemCount := randomIntN 3 6 d1
  let (d2, draws) := nextDraw draws
  (.merchantP itemCount (d2 * (1.2 - 0.8) + 0.8), draws)

/-- `generateRestSite` (mapgen 617–626): one draw over four site names. -/
def generateRestSite (draws : List ℚ) : NodePayload × List ℚ :=
  let (d, draws) := nextDraw draws
  (.restP (randomChoice ["Campfire", "Natural Spring", "Ancient Shrine", "Peaceful Grove"] d), draws)

/-- `generateRegularNode` (mapgen 339–378): select the type (mutating the
weight catalog), then build the type-specific payload. -/
def generateRegularNode (tmpl : RegionTemplate) (regionKey : String) (difficulty : ℚ)
    (nodeIndex regionLength : ℕ) (w : NodeTypeWeights) (draws : List ℚ) :
    NodeM × NodeTypeWeights × List ℚ :=
  let (d, draws) := nextDraw draws
  let (nodeType, w) := selectNodeType nodeIndex regionLength w d
  let nodeDifficulty := difficulty + nodeIndex * 0.1
  let (payload, draws) :=
    match nodeType with
    | "combat" =>
      let (e, draws) := generateEnemy tmpl nodeDifficulty draws
      (NodePayload.combatP e, draws)
    | "event" => generateEvent tmpl draws
    | "resource" => generateResource tmpl draws
    | "merchant" => generateMerchant draws
    | "rest" => generateRestSite draws
    | _ => (NodePayload.nothingP, draws)
  ({ type := nodeType, difficulty := nodeDifficulty, payload := payload,
     regionKey := regionKey, localIndex := nodeIndex, globalIndex := 0,
     regionIndex := 0 }, w, draws)

/-- `generateBossNode` (mapgen 383–396): one boss-pool draw; the node's
difficulty is the region difficulty × 1.5. -/
def generateBossNode (tmpl : RegionTemplate) (regionKey : String) (difficulty : ℚ)
    (draws : List ℚ) : NodeM × List ℚ :=
  let (d, draws) := nextDraw draws
  let bossType := randomChoice tmpl.bossPool d
  ({ type := "boss", difficulty := difficulty * 1.5,
     payload := .bossP (generateBoss bossType (difficulty * 1.5)),
     regionKey := regionKey, localIndex := 0, globalIndex := 0, regionIndex := 0 }, draws)

/-- A generated region (the object literal of `generateRegion`, mapgen
303–313, with its node list). -/
structure RegionM where
  key : String
  name : String
  index : ℕ
  length : ℕ
  difficulty : ℚ
  nodes : List NodeM
deriving DecidableEq

/-- The node loop of `generateRegion` (mapgen 316–330): `n` nodes remain,
the next has local index `i`; the final node of the last region is the boss
node.  `node.regionKey` / `node.localIndex` are set on every node. -/
def genRegionNodes (tmpl : RegionTemplate) (regionKey : String) (difficulty : ℚ)
    (isLast : Bool) (regionLength : ℕ) :
    ℕ → ℕ → NodeTypeWeights → List ℚ → List NodeM × NodeTypeWeights × List ℚ
  | 0, _, w, draws => ([], w, draws)
  | n + 1, i, w, draws =>
    let (node, w, draws) :=
      if isLast ∧ i = regionLength - 1 then
        let (nd, draws) := generateBossNode tmpl regionKey difficulty draws
        (nd, w, draws)
      else generateRegularNode tmpl regionKey difficulty i regionLength w draws
    let node := { node with localIndex := i }
    let (rest, w, draws) := genRegionNodes tmpl regionKey difficulty isLast regionLength n (i + 1) w draws
    (node :: rest, w, draws)

/-- `generateRegion` (mapgen 295–334): 4–7 base nodes, one extra boss node
in the last region; difficulty = template difficulty + 0.2 per region index. -/
def generateRegion (regionKey : String) (regionIndex totalRegions : ℕ)
    (w : NodeTypeWeights) (draws : List ℚ) : RegionM × NodeTypeWeights × List ℚ :=
  let tmpl := regionsTable regionKey
  let isLast := regionIndex = totalRegions - 1
  let (d, draws) := nextDraw draws
  let baseLength := randomIntN 4 7 d
  let regionLength := if isLast then baseLength + 1 else baseLength
  let difficulty := tmpl.difficulty + regionIndex * 0.2
  let (nodes, w, draws) :=
    genRegionNodes tmpl regionKey difficulty isLast regionLength regionLength 0 w draws
  ({ key := regionKey, name := tmpl.name, index := regionIndex, length := regionLength,
     difficulty := difficulty, nodes := nodes }, w, draws)

/-- The `while` loop of `selectRegions` (mapgen 282–287): as long as slots
remain and the four-key pool is not exhausted, sample a fresh key uniformly
from the pool minus the already-selected ones. -/
def selectRegionsLoop : ℕ → List String → List ℚ → List String × List ℚ
  | 0, selected, draws => (selected, draws)
  | c + 1, selected, draws =>
    if selected.length < regionKeys.length then
      let remaining := regionKeys.filter (fun r => ¬selected.contains r)
      let (d, draws) := nextDraw draws
      selectRegionsLoop c (selected ++ [randomChoice remaining d]) draws
    else (selected, draws)

/-- `selectRegions` (mapgen 273–290): always start with `forest`. -/
def selectRegions (count : ℕ) (draws : List ℚ) : List String × List ℚ :=
  selectRegionsLoop (count - 1) ["forest"] draws

/-- The run object of `generateRun` (mapgen 236–242).  `generateId` mixes
`Date.now()` (a constant, not randomness) with one `Math.random()` draw; the
model keeps the draw as the id. -/
structure RunData where
  id : ℚ
  regions : List RegionM
  nodes : List NodeM
  totalNodes : ℕ
  estimatedDifficulty : ℚ
deriving DecidableEq

/-- The region loop of `generateRun` (mapgen 251–261), generation half. -/
def genRunRegionsAux (totalRegions : ℕ) :
    List String → ℕ → NodeTypeWeights → List ℚ → List RegionM × NodeTypeWeights × List ℚ
  | [], _, w, draws => ([], w, draws)
  | k :: rest, idx, w, draws =>
    let (rg, w, draws) := generateRegion k idx totalRegions w draws
    let (rs, w, draws) := genRunRegionsAux totalRegions rest (idx + 1) w draws
    (rg :: rs, w, draws)

/-- The flattening half of `generateRun`'s region loop: each node receives
the running global index and its region index; `runData.nodes` aliases the
region node objects, so both views carry the indices. -/
def flattenRegions : List RegionM → ℕ → ℕ → List RegionM × List NodeM
  | [], _, _ => ([], [])
  | rg :: rest, regionIndex, start =>
    let nodes := rg.nodes.mapIdx
      (fun j nd => { nd with globalIndex := start + j, regionIndex := regionIndex })
    let rg := { rg with nodes := nodes }
    let (rs, ns) := flattenRegions rest (regionIndex + 1) (start + nodes.length)
    (rg :: rs, nodes ++ ns)

/-- `calculateRunDifficulty` (mapgen 631–638): mean of the selected regions'
base (template) difficulties. -/
def calculateRunDifficulty (keys : List String) : ℚ :=
  (keys.foldl (fun acc k => acc + (regionsTable k).difficulty) 0) / keys.length

/-- `generateRun` (mapgen 233–268).  The catalog of node-type weights is
instance state (`this.nodeTypes`); it is threaded in and handed back because
`selectNodeType` writes through its shallow copy. -/
def generateRun (w : NodeTypeWeights) (draws : List ℚ) :
    RunData × NodeTypeWeights × List ℚ :=
  let (did, draws) := nextDraw draws
  let (dc, draws) := nextDraw draws
  let regionCount := randomIntN 2 4 dc
  let (selected, draws) := selectRegions regionCount draws
  let (regions0, w, draws) := genRunRegionsAux regionCount selected 0 w draws
  let (regions, nodes) := flattenRegions regions0 0 0
  ({ id := did, regions := regions, nodes := nodes, totalNodes := nodes.length,
     estimatedDifficulty := calculateRunDifficulty selected }, w, draws)

/-! ## Entity factory (`persistence.js`, class `Entities`)

Only the warrior class and its eight skill templates are transcribed — the
other three classes are structurally identical catalog data, and no theorem
consults them.  A skill object also carries `level: 1` and cosmetic fields
(description, icon, `areaEffect`) that the modelled engine paths never read. -/

/-- A class template (persistence 736–836). -/
structure ClassTemplate where
  name : String
  baseStrength : ℕ
  baseAgility : ℕ
  baseIntelligence : ℕ
  baseVitality : ℕ
  growthStrength : ℚ
  growthAgility : ℚ
  growthIntelligence : ℚ
  growthVitality : ℚ
  baseHealth : ℕ
  baseMana : ℕ
  healthPerLevel : ℕ
  manaPerLevel : ℕ
  skillNames : List String
deriving DecidableEq

def warriorClassTemplate : ClassTemplate :=
  { name := "Warrior",
    baseStrength := 15, baseAgility := 8, baseIntelligence := 5, baseVitality := 12,
    growthStrength := 2.5, growthAgility := 1.2, growthIntelligence := 0.8, growthVitality := 2.0,
    baseHealth := 100, baseMana := 30, healthPerLevel := 15, manaPerLevel := 3,
    skillNames := ["slash", "shield_bash", "defensive_stance", "charge",
                   "whirlwind", "taunt", "berserker_rage", "guardian_strike"] }

def classTemplates : String → Option ClassTemplate
  | "warrior" => some warriorClassTemplate
  | _ => none

/-- An all-`none` skill to fill in only the fields a template sets. -/
def blankSkill : Skill :=
  { name := "", manaCost := 0, cooldown := 0, currentCooldown := 0, damage := none,
    healing := none, type := "", scalingFactor := none, criticalChance := none,
    criticalMultiplier := none, accuracy := none, statusEffects := [], unlocked := false }

/-- `this.skillTemplates` (persistence 839–933), warrior entries. -/
def slashTemplate : Skill :=
  { blankSkill with
    name := "Slash", manaCost := 0, cooldown := 0, damage := jn 25,
    type := "physical", scalingFactor := jn 1.2, criticalChance := jn 0.15, accuracy := jn 0.95 }

def shieldBashTemplate : Skill :=
  { blankSkill with
    name := "Shield Bash", manaCost := 10, cooldown := 2, damage := jn 15,
    type := "physical", scalingFactor := jn 0.8, statusEffects := [⟨"stunned", 1, 0.3⟩],
    accuracy := jn 0.9 }

def defensiveStanceTemplate : Skill :=
  { blankSkill with
    name := "Defensive Stance", manaCost := 15, cooldown := 4, damage := jn 0,
    type := "buff", statusEffects := [⟨"defense_boost", 3, 1.0⟩] }

def chargeTemplate : Skill :=
  { blankSkill with
    name := "Charge", manaCost := 20, cooldown := 3, damage := jn 40,
    type := "physical", scalingFactor := jn 1.5, criticalChance := jn 0.25, accuracy := jn 0.85 }

def whirlwindTemplate : Skill :=
  { blankSkill with
    name := "Whirlwind", manaCost := 25, cooldown := 4, damage := jn 30,
    type := "physical", scalingFactor := jn 1.0, accuracy := jn 0.9 }

def tauntTemplate : Skill :=
  { blankSkill with
    name := "Taunt", manaCost := 5, cooldown := 2, damage := jn 0,
    type := "debuff", statusEffects := [⟨"taunted", 2, 0.8⟩] }

def berserkerRageTemplate : Skill :=
  { blankSkill with
    name := "Berserker Rage", manaCost := 30, cooldown := 6, damage := jn 0,
    type := "buff", statusEffects := [⟨"strength_boost", 4, 1.0⟩, ⟨"defense_weakness", 4, 1.0⟩] }

def guardianStrikeTemplate : Skill :=
  { blankSkill with
    name := "Guardian Strike", manaCost := 35, cooldown := 5, damage := jn 35,
    healing := jn 20, type := "physical", scalingFactor := jn 1.3, criticalChance := jn 0.2 }

def skillTemplates : String → Option Skill
  | "slash" => some slashTemplate
  | "shield_bash" => some shieldBashTemplate
  | "defensive_stance" => some defensiveStanceTemplate
  | "charge" => some chargeTemplate
  | "whirlwind" => some whirlwindTemplate
  | "taunt" => some tauntTemplate
  | "berserker_rage" => some berserkerRageTemplate
  | "guardian_strike" => some guardianStrikeTemplate
  | _ => none

/-- A character as built by `Entities.createCharacter` (persistence
1254–1310): note `maxHealth` / `maxMana`, and **no** `maxHp` field. -/
structure Character where
  name : String
  className : String
  level : ℕ
  experience : ℕ
  experienceToNext : ℕ
  baseStrength : ℕ
  baseAgility : ℕ
  baseIntelligence : ℕ
  baseVitality : ℕ
  strength : ℕ
  agility : ℕ
  intelligence : ℕ
  vitality : ℕ
  maxHealth : ℕ
  maxMana : ℕ
  attack : ℕ
  defense : ℕ
  speed : ℕ
  hp : ℕ
  mana : ℕ
  skills : List Skill
  growthStrength : ℚ
  growthAgility : ℚ
  growthIntelligence : ℚ
  growthVitality : ℚ
  factionDefenseBonus : Option ℚ
deriving DecidableEq

/-- `Math.floor` of a non-negative rational, as a natural number. -/
def floorN (q : ℚ) : ℕ := (⌊q⌋).toNat

/-- `createCharacterSkills` (persistence 1315–1332): instantiate each known
template with `currentCooldown: 0`, `unlocked: true` (unknown names are
silently skipped). -/
def createCharacterSkills (ct : ClassTemplate) : List Skill :=
  ct.skillNames.filterMap (fun n =>
    (skillTemplates n).map (fun t => { t with currentCooldown := 0, unlocked := true }))

/-- `createCharacter` (persistence 1254–1310).  `none` models the
`Unknown class` throw.  `fdb` is the faction's `defenseBonus` (absent for
factions without one / unknown factions, per `applyFactionBonuses`). -/
def createCharacter (className : String) (fdb : Option ℚ) : Option Character :=
  (classTemplates className).map (fun ct =>
    let defense0 := floorN ((ct.baseVitality : ℚ) * 0.8)
    let defense := match fdb with
      | some b => floorN ((defense0 : ℚ) * b)
      | none => defense0
    { name := ct.name, className := className, level := 1, experience := 0,
      experienceToNext := 100,
      baseStrength := ct.baseStrength, baseAgility := ct.baseAgility,
      baseIntelligence := ct.baseIntelligence, baseVitality := ct.baseVitality,
      strength := ct.baseStrength, agility := ct.baseAgility,
      intelligence := ct.baseIntelligence, vitality := ct.baseVitality,
      maxHealth := ct.baseHealth + ct.baseVitality * 5,
      maxMana := ct.baseMana + ct.baseIntelligence * 3,
      attack := ct.baseStrength, defense := defense, speed := ct.baseAgility,
      hp := ct.baseHealth + ct.baseVitality * 5,
      mana := ct.baseMana + ct.baseIntelligence * 3,
      skills := createCharacterSkills ct,
      growthStrength := ct.growthStrength, growthAgility := ct.growthAgility,
      growthIntelligence := ct.growthIntelligence, growthVitality := ct.growthVitality,
      factionDefenseBonus := fdb })

/-- `startCombat` clones the run character into combat via a JSON round
trip (`cloneEntity`); the clone keeps exactly the character's own fields —
in particular `maxHealth` but **no** `maxHp` (and no `level`-independent
`difficulty`), which is what the combat mutators then read. -/
def characterCombatEntity (c : Character) : Entity :=
  { name := c.name, type := "", level := c.level,
    strength := some c.strength, agility := some c.agility,
    intelligence := some c.intelligence, vitality := some c.vitality,
    attack := some c.attack, defense := some c.defense, speed := some c.speed,
    hp := some c.hp, maxHp := none, maxHealth := some c.maxHealth,
    maxMana := some c.maxMana, mana := some c.mana,
    statusEffects := [], skills := c.skills, isBoss := false,
    statusResistance := none, bossData := none, phaseAbilities := [],
    difficulty := none }

/-- `recalculateCharacterStats` (persistence 1424–1435). -/
def recalculateCharacterStats (c : Character) : Character :=
  let attack := c.strength + floorN ((c.level : ℚ) * 0.5)
  let defense := floorN ((c.vitality : ℚ) * 0.8) + floorN ((c.level : ℚ) * 0.3)
  let speed := c.agility + floorN ((c.level : ℚ) * 0.2)
  let defense := match c.factionDefenseBonus with
    | some b => floorN ((defense : ℚ) * b)
    | none => defense
  { c with attack := attack, defense := defense, speed := speed }

/-- `skill.requiredLevel || 1`: no transcribed template sets the field, so
the unlock requirement is always level 1 (modelled via the JS `||` default). -/
def requiredLevelOf (_sk : Skill) : ℕ := 1

/-- `checkSkillUnlocks` (persistence 1409–1419). -/
def checkSkillUnlocks (c : Character) : Character :=
  { c with skills := c.skills.map (fun sk =>
      if ¬sk.unlocked ∧ requiredLevelOf sk ≤ c.level then { sk with unlocked := true } else sk) }

/-- `levelUpCharacter` (persistence 1365–1404).  The four stat-growth draws
are consumed in the `growthRates` key order (strength, agility,
intelligence, vitality). -/
def levelUpCharacter (c : Character) (draws : List ℚ) : Character × List ℚ :=
  let c := { c with level := c.level + 1,
                    experience := c.experience - c.experienceToNext,
                    experienceToNext := floorN ((c.experienceToNext : ℚ) * 1.2) }
  let (ds, draws) := nextDraw draws
  let incS := floorN (c.growthStrength + ds)
  let (da, draws) := nextDraw draws
  let incA := floorN (c.growthAgility + da)
  let (di, draws) := nextDraw draws
  let incI := floorN (c.growthIntelligence + di)
  let (dv, draws) := nextDraw draws
  let incV := floorN (c.growthVitality + dv)
  let c := { c with baseStrength := c.baseStrength + incS, strength := c.strength + incS,
                    baseAgility := c.baseAgility + incA, agility := c.agility + incA,
                    baseIntelligence := c.baseIntelligence + incI, intelligence := c.intelligence + incI,
                    baseVitality := c.baseVitality + incV, vitality := c.vitality + incV }
  let ct := (classTemplates c.className).getD warriorClassTemplate
  let healthIncrease := ct.healthPerLevel + floorN ((c.vitality : ℚ) * 0.5)
  let manaIncrease := ct.manaPerLevel + floorN ((c.intelligence : ℚ) * 0.3)
  let c := { c with maxHealth := c.maxHealth + healthIncrease,
                    maxMana := c.maxMana + manaIncrease,
                    hp := c.hp + healthIncrease,
                    mana := c.mana + manaIncrease }
  (checkSkillUnlocks (recalculateCharacterStats c), draws)

/-- The `while (experience >= experienceToNext)` loop of
`addExperienceToCharacter` (persistence 1357–1359), with explicit fuel.
With any `experienceToNext ≥ 1` each pass strictly decreases `experience`,
so fuel `experience + 1` is enough (proved below). -/
def levelLoop : ℕ → Character → List ℚ → Character × List ℚ
  | 0, c, draws => (c, draws)
  | n + 1, c, draws =>
    if c.experienceToNext ≤ c.experience then
      let (c, draws) := levelUpCharacter c draws
      levelLoop n c draws
    else (c, draws)

/-- `addExperienceToCharacter` (persistence 1354–1360). -/
def addExperienceToCharacter (c : Character) (experience : ℕ) (draws : List ℚ) :
    Character × List ℚ :=
  let c := { c with experience := c.experience + experience }
  levelLoop (c.experience + 1) c draws

/-! ## Session construction (`startCombat`, combat.js 108–176) -/

/-- `startCombat` clones a generated enemy (`generateEnemy` /
`generateBoss` object) into combat; such an entity carries `maxHp` but no
`maxHealth` / `maxMana` / primary stats. -/
def enemyCombatEntity (e : EnemyM) : Entity :=
  { name := e.name, type := e.type, level := (e.level : ℚ),
    strength := none, agility := none, intelligence := none, vitality := none,
    attack := some e.attack, defense := some e.defense, speed := some e.speed,
    hp := some e.hp, maxHp := some e.maxHp, maxHealth := none, maxMana := none,
    mana := none, statusEffects := [], skills := [], isBoss := e.isBoss,
    statusResistance := none, bossData := none, phaseAbilities := [],
    difficulty := none }

/-- `this.bossPhases` (combat.js 49–72). -/
def bossPhasesCatalog : String → Option (List BossPhase)
  | "forest_guardian" => some
      [⟨0.75, ["nature_heal"]⟩, ⟨0.5, ["root_entangle"]⟩, ⟨0.25, ["forest_fury"]⟩]
  | "sand_dragon" => some
      [⟨0.66, ["sand_breath"]⟩, ⟨0.33, ["dune_dive"]⟩, ⟨0.1, ["desert_rage"]⟩]
  | "ice_queen" => some
      [⟨0.8, ["frost_armor"]⟩, ⟨0.6, ["ice_storm"]⟩, ⟨0.4, ["frozen_heart"]⟩,
       ⟨0.2, ["absolute_zero"]⟩]
  | _ => none

/-- `initializeBoss` (combat.js 161–176): install the phase table when the
boss type has one; always set the status resistance (the critical
resistance is written but never read by the engine). -/
def initializeBossE (e : Entity) : Entity :=
  let e := match bossPhasesCatalog e.type with
    | some phases => { e with bossData := some ⟨phases, 0, ∅⟩ }
    | none => e
  { e with statusResistance := jn 0.5 }

/-- `startCombat` (combat.js 108–156): clone both entities, reset their
status-effect maps, initialize boss data when the boss option is set, and
give the first turn to the enemy exactly when its speed is strictly higher
(a `NaN` speed comparison is false, so the player leads). -/
def startCombatSession (player enemy : Entity) (isBoss allowFlee : Bool) : Session :=
  let player := { player with statusEffects := [] }
  let enemy := { enemy with statusEffects := [] }
  let enemy := if isBoss then initializeBossE enemy else enemy
  { isActive := true,
    currentTurn := if jlt player.speed enemy.speed then "enemy" else "player",
    turnCounter := 1, player := some player, enemy := some enemy,
    isBoss := isBoss, allowFlee := allowFlee, resolved := none }

/-! ## Concrete fixtures used by the theorems -/

/-- The character `createCharacter("warrior", …)` builds (no faction
defense bonus), spelled out. -/
def warriorCharacter : Character :=
  { name := "Warrior", className := "warrior", level := 1, experience := 0,
    experienceToNext := 100,
    baseStrength := 15, baseAgility := 8, baseIntelligence := 5, baseVitality := 12,
    strength := 15, agility := 8, intelligence := 5, vitality := 12,
    maxHealth := 160, maxMana := 45, attack := 15, defense := 9, speed := 8,
    hp := 160, mana := 45,
    skills := createCharacterSkills warriorClassTemplate,
    growthStrength := 2.5, growthAgility := 1.2, growthIntelligence := 0.8,
    growthVitality := 2.0, factionDefenseBonus := none }

/-- The first forest enemy drawn with draw 0: a difficulty-1.0 Goblin Scout. -/
def forestGoblin : EnemyM := (generateEnemy forestTemplate 1.0 [0]).1

/-- A plain (non-boss, flee allowed) encounter between the fresh warrior and
the goblin, as `startCombat` sets it up. -/
def demoSession : Session :=
  startCombatSession (characterCombatEntity warriorCharacter) (enemyCombatEntity forestGoblin)
    false true

/-- Projection of a non-thrown result. -/
def okResult {ε α : Type} : Except ε α → Option α
  | .ok a => some a
  | .error _ => none

/-! ## C2 -/


def goblinLit : EnemyM :=
  { name := "Goblin Scout", hp := 35, maxHp := 35, attack := 8, defense := 2, speed := 6,
    level := 5, type := "goblin", isBoss := false, abilities := [] }

def demoPlayer : Entity := characterCombatEntity warriorCharacter

def demoEnemy : Entity := enemyCombatEntity goblinLit

def slashI : Skill := { slashTemplate with currentCooldown := 0, unlocked := true }

def dsI : Skill := { defensiveStanceTemplate with currentCooldown := 0, unlocked := true }

def demoSessionLit : Session :=
  { isActive := true, currentTurn := "player", turnCounter := 1, player := some demoPlayer,
    enemy := some demoEnemy, isBoss := false, allowFlee := true, resolved := none }

def c3Result : CombatResult :=
  { victory := true, reason := "Enemy defeated", turnCount := 1,
    experience := some (some 100),
    rewards := some { gold := 10, items := [], essences := none } }

def c3Final : Session :=
  { isActive := false, currentTurn := "player", turnCounter := 0, player := none,
    enemy := none, isBoss := false, allowFlee := true, resolved := some c3Result }

def slI : Skill := { slashTemplate with currentCooldown := 0, unlocked := true }

def sbI : Skill := { shieldBashTemplate with currentCooldown := 0, unlocked := true }

def chI : Skill := { chargeTemplate with currentCooldown := 0, unlocked := true }

def wwI : Skill := { whirlwindTemplate with currentCooldown := 0, unlocked := true }

def taI : Skill := { tauntTemplate with currentCooldown := 0, unlocked := true }

def brI : Skill := { berserkerRageTemplate with currentCooldown := 0, unlocked := true }

def gsI : Skill := { guardianStrikeTemplate with currentCooldown := 0, unlocked := true }

def c10Player : Entity :=
  { demoPlayer with
    mana := some 30,
    skills := [slI, sbI, { dsI with currentCooldown := 4 }, chI, wwI, taI, brI, gsI] }

def c10Mid : Session :=
  { demoSessionLit with
    player := some c10Player,
    enemy := some { demoEnemy with statusEffects := [("defense_boost", 3)] } }

def c10End : Session :=
  { c10Mid with
    currentTurn := "enemy",
    player := some { c10Player with
      skills := [slI, sbI, { dsI with currentCooldown := 3 }, chI, wwI, taI, brI, gsI] } }

def phaseQualifies (phases : List BossPhase) (triggered : Finset ℕ) (hpPct : JsNum)
    (j : ℕ) : Prop :=
  match phases.get? j with
  | some ph => jle hpPct (jn ph.hpThreshold) = true ∧ j ∉ triggered
  | none => False

def scanAfterDamage (b : Entity) (newHp : JsNum) : Entity :=
  checkBossPhaseTransition { b with hp := newHp }

def scanSequence (b : Entity) (hps : List JsNum) : Entity :=
  hps.foldl scanAfterDamage b

def c4Boss : Entity :=
  { initializeBossE (enemyCombatEntity
      ⟨"Ice Queen", 220, 220, 32, 16, 4, 10, "ice_queen", true, []⟩) with hp := some 110 }

def c4BossData : BossData :=
  ⟨[⟨0.8, ["frost_armor"]⟩, ⟨0.6, ["ice_storm"]⟩, ⟨0.4, ["frozen_heart"]⟩,
    ⟨0.2, ["absolute_zero"]⟩], 0, ∅⟩

def natureHealSkill : Skill :=
  { blankSkill with
    name := "Natures Blessing", manaCost := 0, cooldown := 3, healing := some 50,
    type := "magic", scalingFactor := some 0.5 }

def rootEntangleSkill : Skill :=
  { blankSkill with
    name := "Root Entangle", manaCost := 0, cooldown := 4, damage := some 25,
    type := "nature", statusEffects := [⟨"stunned", 1, 0.8⟩] }

def iceStormSkill : Skill :=
  { blankSkill with
    name := "Ice Storm", manaCost := 0, cooldown := 5, damage := some 40,
    type := "magic", statusEffects := [⟨"frozen", 1, 0.4⟩] }

def getBossSkill : String → Option Skill
  | "nature_heal" => some natureHealSkill
  | "root_entangle" => some rootEntangleSkill
  | "ice_storm" => some iceStormSkill
  | _ => none

def forestGuardianM : EnemyM :=
  ⟨"Forest Guardian", 225, 225, 37, 22, 5, 15, "forest_guardian", true,
   ["nature_heal", "root_entangle", "forest_fury"]⟩

def c7Attacker : Entity :=
  { name := "Attacker", type := "", level := 1, strength := some 10, agility := some 0,
    intelligence := some 0, vitality := some 0, attack := some 10, defense := some 0,
    speed := some 5, hp := some 100, maxHp := some 100, maxHealth := none, maxMana := none,
    mana := some 0, statusEffects := [], skills := [], isBoss := false,
    statusResistance := none, bossData := none, phaseAbilities := [], difficulty := none }

def c7Defender : Entity := { c7Attacker with name := "Defender", strength := some 0, attack := some 0 }

def c7Skill : Skill :=
  { blankSkill with
    name := "Test Strike", damage := some 20, type := "physical", scalingFactor := some 1,
    accuracy := some 1 }

theorem createCharacter_warrior_eq : createCharacter "warrior" none = some warriorCharacter := by
  norm_num [createCharacter, classTemplates, warriorClassTemplate, warriorCharacter, floorN]
  decide

/-! ## C1 -/

/-- C1: the claim that every combat mutation preserves
`0 ≤ hp ≤ maxHealth` fails on the code: `healEntity` reads `target.maxHp`,
a field player characters do not have (they carry `maxHealth`), so healing
a damaged warrior (160 max, 100 current) by 10 sets
`hp = 100 + min(10, undefined − 100) = NaN`: afterwards neither `0 ≤ hp`
nor `hp ≤ maxHealth` holds (both JS comparisons are false on `NaN`). -/
theorem c1_healEntity_gives_player_nan_hp :
    (healEntityE { characterCombatEntity warriorCharacter with hp := some 100 } (jn 10)).hp
        = none ∧
    (characterCombatEntity warriorCharacter).maxHealth = some 160 ∧
    jle (jn 0) (healEntityE { characterCombatEntity warriorCharacter with hp := some 100 } (jn 10)).hp
        = false ∧
    jle (healEntityE { characterCombatEntity warriorCharacter with hp := some 100 } (jn 10)).hp
        (characterCombatEntity warriorCharacter).maxHealth = false := by
  norm_num [healEntityE, characterCombatEntity, warriorCharacter, jmin, jsub, jadd, jle, jn]

/-! ## C2 -/

set_option maxHeartbeats 3000000 in
/-- C2: the claim that `generateRun` leaves the node-type weight catalog
unchanged fails on the code: `selectNodeType` copies `this.nodeTypes` with
a *shallow* spread, so its `weight *= …` adjustments write through to the
shared catalog.  A single first-node selection already raises the combat
weight from 40 to 60, and one whole `generateRun` (here with an all-zeros
draw stream) leaves the catalog at combat weight 197.73 ≠ 40. -/
theorem c2_generateRun_mutates_weight_catalog :
    initialNodeTypeWeights.combat = 40 ∧
    (selectNodeType 0 5 initialNodeTypeWeights 0).2.combat = 60 ∧
    (generateRun initialNodeTypeWeights (List.replicate 60 0)).2.1.combat = 19773 / 100 ∧
    (generateRun initialNodeTypeWeights (List.replicate 60 0)).2.1 ≠ initialNodeTypeWeights := by
  have h1 : initialNodeTypeWeights.combat = 40 := rfl
  have h2 : (selectNodeType 0 5 initialNodeTypeWeights 0).2.combat = 60 := by
    norm_num [selectNodeType, initialNodeTypeWeights, weightedRandomChoice, weightEntries, wrcWalk]
  have h3 : (generateRun initialNodeTypeWeights (List.replicate 60 0)).2.1.combat = 19773 / 100 := by
    norm_num [generateRun, nextDraw, randomIntN, selectRegions, selectRegionsLoop, randomChoice,
      regionKeys, genRunRegionsAux, generateRegion, regionsTable, forestTemplate, desertTemplate,
      genRegionNodes, generateRegularNode, generateBossNode, selectNodeType, weightedRandomChoice,
      weightEntries, wrcWalk, initialNodeTypeWeights, generateEnemy, enemyTemplates, generateEvent,
      generateResource, generateMerchant, generateRestSite, generateBoss, bossTemplates,
      flattenRegions, calculateRunDifficulty, List.replicate]
  refine ⟨h1, h2, h3, fun h => ?_⟩
  rw [h, h1] at h3
  norm_num at h3


theorem demoSession_eq : demoSession = demoSessionLit := by
  norm_num [demoSession, startCombatSession, characterCombatEntity, enemyCombatEntity,
    warriorCharacter, jlt, demoPlayer, demoEnemy, demoSessionLit, goblinLit, forestGoblin,
    generateEnemy, forestTemplate, enemyTemplates, randomChoice, nextDraw, randomIntN]

theorem applySpecial_slash (c : Entity) (cie : Bool) (res : SkillResult) (draws : List ℚ) :
    applySpecialSkillEffects slashI c cie res draws = (res, draws) := by
  have hlow : lowerName slashI = "slash" := by decide
  unfold applySpecialSkillEffects
  rw [hlow]
  split <;> simp_all

theorem applySpecial_ds (c : Entity) (cie : Bool) (res : SkillResult) (draws : List ℚ) :
    applySpecialSkillEffects dsI c cie res draws = (res, draws) := by
  have hlow : lowerName dsI = "defensive stance" := by decide
  unfold applySpecialSkillEffects
  rw [hlow]
  split <;> simp_all

theorem executeSkill_slash : executeSkill demoPlayer demoEnemy slashI false [0, 9/10, 0, 0, 9/10] =
    (⟨some 35, jn 0, [], false, true⟩, [0, 9/10]) := by
  simp only [executeSkill, applySpecial_slash]
  norm_num [calculateDamage, checkCritical, checkHit, getRelevantAttackStat, hasEffect,
    demoPlayer, demoEnemy, slashI, slashTemplate, blankSkill, characterCombatEntity,
    enemyCombatEntity, warriorCharacter, goblinLit, jadd, jsub, jmul, jdiv, jlt, jle,
    jmin, jmax, jfloor, jor, jn, nextDraw]

theorem applySkillResult_slash : applySkillResult demoSessionLit .player (some 0) slashI
    ⟨some 35, jn 0, [], false, true⟩ [0, 9/10] = (c3Final, []) := by
  norm_num [applySkillResult, dealDamage, healEntity, healEntityE, applyStatusEffect,
    endCombat, calculateExperienceGain, calculateCombatRewards, updateSide, getSide,
    Side.other, demoSessionLit, demoPlayer, demoEnemy, characterCombatEntity,
    enemyCombatEntity, warriorCharacter, goblinLit, slashI, slashTemplate, blankSkill,
    c3Final, c3Result, jadd, jsub, jmul, jdiv, jlt, jle, jmin, jmax, jfloor, jor, jn,
    nextDraw, randomIntN, randomChoice, mapSet]

/-- C3: the claim that a validated skill use returns `true` fails on the
killing blow: Slash kills the 35-hp goblin, `dealDamage` ends combat and
`cleanup()` nulls `this.player`, so the subsequent `endPlayerTurn` throws on
`this.player.statusEffects`; the catch in `useSkill` swallows the error and
returns `false` even though the attack resolved and the combat was won. -/
theorem c3_useSkill_killing_blow_returns_false :
    demoSession.isActive = true ∧ demoSession.currentTurn = "player" ∧
    demoPlayer.skills[0]? = some slashI ∧ canUseSkill demoPlayer slashI = true ∧
    useSkill demoSession 0 [0, 9/10, 0, 0, 9/10] = .ok (false, c3Final, []) ∧
    c3Final.resolved = some c3Result ∧ c3Result.victory = true ∧
    c3Final.isActive = false := by
  have hget : demoPlayer.skills[0]? = some slashI := rfl
  have hcan : canUseSkill demoPlayer slashI = true := by decide
  have hept : endPlayerTurn c3Final [] = .error (c3Final, []) := rfl
  refine ⟨by rw [demoSession_eq]; rfl, by rw [demoSession_eq]; rfl, hget, hcan, ?_, rfl, rfl, rfl⟩
  rw [demoSession_eq]
  have h1 : demoSessionLit.isActive = true := rfl
  have h2 : demoSessionLit.currentTurn = "player" := rfl
  have h3 : demoSessionLit.player = some demoPlayer := rfl
  have h4 : demoSessionLit.enemy = some demoEnemy := rfl
  simp only [useSkill, h1, h2, h3, h4]
  norm_num
  split
  · next heq => rw [hget] at heq; exact absurd heq (by simp)
  · next skill heq =>
    rw [hget] at heq
    injection heq with h
    subst h
    rw [hcan]
    simp only [executeSkill_slash, applySkillResult_slash, hept]
    norm_num

theorem executeSkill_ds : executeSkill demoPlayer demoEnemy dsI false [1/2, 3/10] =
    (⟨jn 0, jn 0, [⟨"defense_boost", 3⟩], false, true⟩, [3/10]) := by
  simp only [executeSkill, applySpecial_ds]
  norm_num [demoPlayer, demoEnemy, dsI, defensiveStanceTemplate, blankSkill,
    characterCombatEntity, enemyCombatEntity, warriorCharacter, goblinLit,
    jlt, jn, nextDraw]

theorem statusEffect_ds : applyStatusEffect demoSessionLit .enemy "defense_boost" 3 [3/10] =
    ({ demoSessionLit with enemy := some { demoEnemy with statusEffects := [("defense_boost", 3)] } }, []) := by
  norm_num [applyStatusEffect, getSide, updateSide, demoSessionLit, demoEnemy,
    enemyCombatEntity, goblinLit, jor, jlt, jn, nextDraw, mapSet]

theorem setCd_ds : setSkillCooldownAt (createCharacterSkills warriorClassTemplate) 2 =
    [slI, sbI, { dsI with currentCooldown := 4 }, chI, wwI, taI, brI, gsI] := rfl

theorem applySkillResult_ds : applySkillResult demoSessionLit .player (some 2) dsI
    ⟨jn 0, jn 0, [⟨"defense_boost", 3⟩], false, true⟩ [3/10] = (c10Mid, []) := by
  norm_num [applySkillResult, applyStatusEffect, updateSide, getSide, Side.other,
    demoSessionLit, demoPlayer, demoEnemy, characterCombatEntity, enemyCombatEntity,
    warriorCharacter, goblinLit, dsI, defensiveStanceTemplate, blankSkill, c10Mid,
    c10Player, setCd_ds, jlt, jn, jor, jsub, nextDraw, mapSet]

theorem endPlayerTurn_ds : endPlayerTurn c10Mid [] = .ok (c10End, []) := rfl

/-- Defensive Stance end-to-end: the rolled defense_boost lands on the enemy. -/
theorem c10_concrete :
    demoPlayer.skills[2]? = some dsI ∧
    dsI.statusEffects = [⟨"defense_boost", 3, 1.0⟩] ∧
    useSkill demoSession 2 [1/2, 3/10] = .ok (true, c10End, []) ∧
    (c10End.enemy.map Entity.statusEffects) = some [("defense_boost", 3)] ∧
    (c10End.player.map Entity.statusEffects) = some [] := by
  have hget : demoPlayer.skills[2]? = some dsI := rfl
  have hcan : canUseSkill demoPlayer dsI = true := by decide
  refine ⟨hget, rfl, ?_, rfl, rfl⟩
  rw [demoSession_eq]
  have h1 : demoSessionLit.isActive = true := rfl
  have h2 : demoSessionLit.currentTurn = "player" := rfl
  have h3 : demoSessionLit.player = some demoPlayer := rfl
  have h4 : demoSessionLit.enemy = some demoEnemy := rfl
  simp only [useSkill, h1, h2, h3, h4]
  norm_num
  split
  · next heq => rw [hget] at heq; exact absurd heq (by simp)
  · next skill heq =>
    rw [hget] at heq
    injection heq with h
    subst h
    rw [hcan]
    simp only [executeSkill_ds, applySkillResult_ds, endPlayerTurn_ds]
    norm_num

theorem Side.other_ne (a : Side) : a.other ≠ a := by cases a <;> simp [Side.other]

theorem getSide_updateSide_other (s : Session) (a b : Side) (f : Entity → Entity)
    (h : a ≠ b) : getSide (updateSide s a f) b = getSide s b := by
  cases a <;> cases b <;> simp only [updateSide, getSide] <;> first
    | exact absurd rfl h
    | (cases hse : s.player <;> simp [hse])
    | (cases hse : s.enemy <;> simp [hse])

theorem getSide_updateSide_self (s : Session) (a : Side) (f : Entity → Entity) :
    getSide (updateSide s a f) a = (getSide s a).map f := by
  cases a <;> simp only [updateSide, getSide] <;> first
    | (cases hse : s.player <;> simp [hse])
    | (cases hse : s.enemy <;> simp [hse])

theorem getSide_endCombat (v : Bool) (r : String) (s : Session) (d : List ℚ) (b : Side) :
    getSide (endCombat v r s d).1 b = none := by
  unfold endCombat
  cases v <;> cases hse : s.enemy <;> cases b <;> rfl

theorem getSide_dealDamage_other (s : Session) (a b : Side) (dmg : JsNum) (d : List ℚ)
    (h : a ≠ b) :
    getSide (dealDamage s a dmg d).1 b = getSide s b ∨
    getSide (dealDamage s a dmg d).1 b = none := by
  unfold dealDamage
  have h1 := getSide_updateSide_other s a b (fun t => { t with hp := jmax (jn 0) (jsub t.hp dmg) }) h
  cases hts : getSide (updateSide s a fun t => { t with hp := jmax (jn 0) (jsub t.hp dmg) }) a with
  | none => simpa [hts] using Or.inl h1
  | some t =>
    simp only [hts]
    by_cases hd : jle t.hp (jn 0) = true
    · simp only [hd, if_true]
      cases a
      · exact Or.inr (getSide_endCombat false "Player defeated" _ d b)
      · exact Or.inr (getSide_endCombat true "Enemy defeated" _ d b)
    · simp only [hd, if_false]
      by_cases hb : (t.isBoss && t.bossData.isSome) = true
      · simp only [hb, if_true]
        refine Or.inl ?_
        have h2 := getSide_updateSide_other
          (updateSide s a fun t => { t with hp := jmax (jn 0) (jsub t.hp dmg) })
          a b checkBossPhaseTransition h
        simpa [h2] using h1
      · simp only [hb, if_false]
        exact Or.inl h1

theorem getSide_applyStatusEffect_other (s : Session) (a b : Side) (ty : String) (dur : ℤ)
    (d : List ℚ) (h : a ≠ b) :
    getSide (applyStatusEffect s a ty dur d).1 b = getSide s b := by
  unfold applyStatusEffect
  by_cases hr : jlt (jn (nextDraw d).1) (match getSide s a with
    | some t => jor t.statusResistance (jn 0)
    | none => jor none (jn 0)) = true
  · simp only [hr, if_true]
  · simp only [hr, if_false]
    exact getSide_updateSide_other s a b _ h

theorem getSide_statusFold_other (l : List RolledStatus) (s : Session) (a b : Side)
    (d : List ℚ) (h : a ≠ b) :
    getSide (l.foldl (fun (acc : Session × List ℚ) eff =>
      applyStatusEffect acc.1 a eff.type eff.duration acc.2) (s, d)).1 b = getSide s b := by
  induction l generalizing s d with
  | nil => rfl
  | cons e rest ih =>
    simp only [List.foldl]
    cases hx : applyStatusEffect s a e.type e.duration d with
    | mk s1 d1 =>
      have := getSide_applyStatusEffect_other s a b e.type e.duration d h
      rw [hx] at this
      rw [ih s1 d1]
      exact this

theorem applySkillResult_caster_statusEffects (s : Session) (cs : Side) (idx : Option ℕ)
    (skill : Skill) (res : SkillResult) (draws : List ℚ) (c c' : Entity)
    (hc : getSide s cs = some c)
    (hc' : getSide (applySkillResult s cs idx skill res draws).1 cs = some c') :
    c'.statusEffects = c.statusEffects := by
  have hne : Side.other cs ≠ cs := Side.other_ne cs
  have hmap : ∀ (x : Session) (f : Entity → Entity),
      (∀ e, (f e).statusEffects = e.statusEffects) →
      (∀ cc, getSide x cs = some cc → cc.statusEffects = c.statusEffects) →
      (∀ cc, getSide (updateSide x cs f) cs = some cc → cc.statusEffects = c.statusEffects) := by
    intro x f hf hx cc h
    rw [getSide_updateSide_self] at h
    cases hg : getSide x cs with
    | none => rw [hg] at h; cases h
    | some e => rw [hg] at h; cases h; rw [hf]; exact hx e hg
  simp only [applySkillResult] at hc'
  rcases h1 : (if (jlt (jn 0) res.damage && res.hit) = true
      then dealDamage s cs.other res.damage draws else (s, draws)) with ⟨s1, d1⟩
  have P1 : ∀ cc, getSide s1 cs = some cc → cc.statusEffects = c.statusEffects := by
    have hs1 : getSide s1 cs = some c ∨ getSide s1 cs = none := by
      by_cases hcnd : (jlt (jn 0) res.damage && res.hit) = true
      · rw [if_pos hcnd] at h1
        rcases getSide_dealDamage_other s cs.other cs res.damage draws hne with h | h
        · left; rw [h1] at h; rw [h, hc]
        · right; rw [h1] at h; rw [h]
      · rw [if_neg hcnd] at h1
        left
        cases h1
        exact hc
    intro cc h
    rcases hs1 with h' | h'
    · rw [h'] at h; cases h; rfl
    · rw [h'] at h; cases h
  rw [h1] at hc'
  simp only at hc'
  rcases hheal : (if (jlt (jn 0) res.healing) = true then healEntity s1 cs res.healing else s1)
    with s2
  have P2 : ∀ cc, getSide s2 cs = some cc → cc.statusEffects = c.statusEffects := by
    by_cases hcnd : (jlt (jn 0) res.healing) = true
    · rw [if_pos hcnd] at hheal
      subst hheal
      exact hmap s1 _ (fun e => rfl) P1
    · rw [if_neg hcnd] at hheal
      subst hheal
      exact P1
  rw [hheal] at hc'
  rcases h3 : (res.statusEffects.foldl (fun (acc : Session × List ℚ) eff =>
      applyStatusEffect acc.1 cs.other eff.type eff.duration acc.2) (s2, d1)) with ⟨s3, d3⟩
  have P3 : ∀ cc, getSide s3 cs = some cc → cc.statusEffects = c.statusEffects := by
    have := getSide_statusFold_other res.statusEffects s2 cs.other cs d1 hne
    rw [h3] at this
    intro cc h
    rw [this] at h
    exact P2 cc h
  rw [h3] at hc'
  simp only at hc'
  have P4 : ∀ cc, getSide (updateSide s3 cs
      (fun cc => { cc with mana := jsub cc.mana (jn skill.manaCost) })) cs = some cc →
      cc.statusEffects = c.statusEffects :=
    hmap s3 _ (fun e => rfl) P3
  cases idx with
  | none =>
    simp only at hc'
    exact P4 c' hc'
  | some i =>
    simp only at hc'
    exact hmap _ (fun cc => { cc with skills := setSkillCooldownAt cc.skills i })
      (fun e => rfl) P4 c' hc'

/-- C5: when the validation in `useSkill` fails — combat inactive or not the
player's turn, skill index out of range, or `canUseSkill` false — the session
and the draw stream are returned unchanged and the result is `false`. -/
theorem c5_useSkill_validation_failure_no_mutation (s : Session) (idx : ℕ)
    (draws : List ℚ) (p : Entity) (hp : s.player = some p) :
    (¬(s.isActive = true ∧ s.currentTurn = "player") →
        useSkill s idx draws = .ok (false, s, draws)) ∧
    (p.skills[idx]? = none → useSkill s idx draws = .ok (false, s, draws)) ∧
    (∀ sk, p.skills[idx]? = some sk → canUseSkill p sk = false →
        useSkill s idx draws = .ok (false, s, draws)) := by
  unfold useSkill
  by_cases hg : ¬s.isActive = true ∨ s.currentTurn ≠ "player"
  · simp only [if_pos hg]
    exact ⟨fun _ => trivial, fun _ => trivial, fun _ _ _ => trivial⟩
  · simp only [if_neg hg]
    push_neg at hg
    refine ⟨fun hcon => absurd ⟨hg.1, hg.2⟩ hcon, ?_, ?_⟩
    · intro hnone
      rw [hp]
      simp only [List.get?_eq_getElem?, hnone]
    · intro sk hsk hcant
      rw [hp]
      simp only [List.get?_eq_getElem?, hsk, hcant]
      norm_num

theorem c5_witness :
    useSkill { demoSession with currentTurn := "enemy" } 0 []
      = .ok (false, { demoSession with currentTurn := "enemy" }, []) := by
  exact (c5_useSkill_validation_failure_no_mutation
    { demoSession with currentTurn := "enemy" } 0 []
    (characterCombatEntity warriorCharacter)
    rfl).1 (by simp)

theorem processStatusEffects_ok_of_player (s : Session) (p : Entity) (d : List ℚ)
    (hp : s.player = some p) :
    ∃ pr, processStatusEffects s .player d = .ok pr := by
  unfold processStatusEffects
  have : getSide s .player = some p := hp
  rw [this]
  exact ⟨_, rfl⟩

theorem endPlayerTurn_ok_of_player (s : Session) (p : Entity) (d : List ℚ)
    (hp : s.player = some p) :
    ∃ s' rest', endPlayerTurn s d = .ok (s', rest') ∧ s'.currentTurn = "enemy" := by
  unfold endPlayerTurn
  obtain ⟨pr, hpr⟩ := processStatusEffects_ok_of_player s p d hp
  rw [hpr]
  exact ⟨_, _, rfl, rfl⟩

/-- C8: `attemptFlee` leaves the session untouched when fleeing is not
allowed; with draw < 0.7 it succeeds and ends combat with `victory = false`
and reason "Player fled"; with draw ≥ 0.7 it fails and the enemy turn
begins via `endPlayerTurn`. -/
theorem c8_attemptFlee_behavior (s : Session) (d : ℚ) (rest : List ℚ) (p : Entity)
    (hp : s.player = some p) (hres : s.resolved = none) :
    (s.allowFlee = false → attemptFlee s (d :: rest) = .ok (false, s, d :: rest)) ∧
    (s.allowFlee = true → d < 0.7 →
      attemptFlee s (d :: rest) = .ok (true,
        { s with isActive := false, player := none, enemy := none, currentTurn := "player",
                 turnCounter := 0,
                 resolved := some { victory := false, reason := "Player fled",
                                    turnCount := s.turnCounter, experience := none,
                                    rewards := none } }, rest)) ∧
    (s.allowFlee = true → ¬(d < 0.7) →
      ∃ s' rest', endPlayerTurn s rest = .ok (s', rest') ∧
        attemptFlee s (d :: rest) = .ok (false, s', rest') ∧ s'.currentTurn = "enemy") := by
  refine ⟨?_, ?_, ?_⟩
  · intro hf
    simp [attemptFlee, hf]
  · intro hf hd
    simp only [attemptFlee, hf, Bool.not_true, nextDraw]
    norm_num
    have hd' : d < 7 / 10 := by rwa [show (7 / 10 : ℚ) = 0.7 from by norm_num]
    rw [if_pos hd']
    unfold endCombat
    simp [hres, hf]
  · intro hf hd
    obtain ⟨s', rest', hept, hturn⟩ := endPlayerTurn_ok_of_player s p rest hp
    refine ⟨s', rest', hept, ?_, hturn⟩
    simp only [attemptFlee, hf, Bool.not_true, nextDraw]
    norm_num
    have hd' : ¬d < 7 / 10 := by rwa [show (7 / 10 : ℚ) = 0.7 from by norm_num]
    rw [if_neg hd', hept]

theorem c8_witness :
    attemptFlee demoSession [0.69] = .ok (true,
      { demoSession with
        isActive := false, player := none, enemy := none, currentTurn := "player",
        turnCounter := 0,
        resolved := some { victory := false, reason := "Player fled",
                           turnCount := demoSession.turnCounter, experience := none,
                           rewards := none } }, []) := by
  exact (c8_attemptFlee_behavior demoSession 0.69 []
    (characterCombatEntity warriorCharacter) rfl rfl).2.1 rfl (by norm_num)

theorem phaseScanGo_some (phases : List BossPhase) (triggered : Finset ℕ) (hpPct : JsNum) :
    ∀ (fuel i k : ℕ), phaseScanGo phases triggered hpPct i fuel = some k →
      i ≤ k ∧ k < phases.length ∧ phaseQualifies phases triggered hpPct k ∧
      ∀ j, i ≤ j → j < k → ¬phaseQualifies phases triggered hpPct j := by
  intro fuel
  induction fuel with
  | zero =>
    intro i k h
    simp [phaseScanGo] at h
  | succ n ih =>
    intro i k h
    unfold phaseScanGo at h
    cases hg : phases.get? i with
    | none => rw [hg] at h; cases h
    | some ph =>
      rw [hg] at h
      simp only at h
      split at h
      next hq =>
        cases h
        obtain ⟨hlen, -⟩ := List.get?_eq_some.mp hg
        refine ⟨le_refl i, hlen, ?_, ?_⟩
        · unfold phaseQualifies
          rw [hg]
          exact hq
        · intro j h1 h2
          omega
      next hq =>
        obtain ⟨h1, h2, h3, h4⟩ := ih (i + 1) k h
        refine ⟨by omega, h2, h3, ?_⟩
        intro j hij hjk
        rcases Nat.eq_or_lt_of_le hij with rfl | hlt
        · unfold phaseQualifies
          rw [hg]
          exact hq
        · exact h4 j hlt hjk

theorem checkBossPhaseTransition_bossData (b : Entity) (bd : BossData)
    (hb : b.bossData = some bd) :
    ∃ bd', (checkBossPhaseTransition b).bossData = some bd' ∧
      bd'.phases = bd.phases ∧
      ((phaseFireIndex bd (jdiv b.hp b.maxHp) = none ∧ bd' = bd) ∨
       (∃ i, phaseFireIndex bd (jdiv b.hp b.maxHp) = some i ∧
         bd'.triggeredPhases = insert i bd.triggeredPhases ∧ bd'.currentPhase = i + 1)) := by
  unfold checkBossPhaseTransition
  rw [hb]
  simp only
  cases hf : phaseFireIndex bd (jdiv b.hp b.maxHp) with
  | none => exact ⟨bd, hb ▸ rfl, rfl, Or.inl ⟨rfl, rfl⟩⟩
  | some i =>
    refine ⟨_, rfl, rfl, Or.inr ⟨i, rfl, rfl, rfl⟩⟩

theorem phaseFireIndex_spec (bd : BossData) (hpPct : JsNum) (i : ℕ)
    (h : phaseFireIndex bd hpPct = some i) :
    bd.currentPhase ≤ i ∧ i < bd.phases.length ∧
    phaseQualifies bd.phases bd.triggeredPhases hpPct i ∧
    ∀ j, bd.currentPhase ≤ j → j < i →
      ¬phaseQualifies bd.phases bd.triggeredPhases hpPct j := by
  unfold phaseFireIndex at h
  exact phaseScanGo_some bd.phases bd.triggeredPhases hpPct _ bd.currentPhase i h

theorem scanSequence_invariant (phases : List BossPhase) :
    ∀ (hps : List JsNum) (b : Entity) (bd : BossData),
      b.bossData = some bd → bd.phases = phases →
      bd.triggeredPhases ⊆ Finset.range phases.length →
      ∃ bd', (scanSequence b hps).bossData = some bd' ∧ bd'.phases = phases ∧
        bd'.triggeredPhases ⊆ Finset.range phases.length := by
  intro hps
  induction hps with
  | nil => intro b bd hb hp hsub; exact ⟨bd, hb, hp, hsub⟩
  | cons h t ih =>
    intro b bd hb hp hsub
    have hb1 : ({ b with hp := h } : Entity).bossData = some bd := hb
    obtain ⟨bd1, hbd1, hph1, hcase⟩ := checkBossPhaseTransition_bossData { b with hp := h } bd hb1
    have hsub1 : bd1.triggeredPhases ⊆ Finset.range phases.length := by
      rcases hcase with ⟨-, rfl⟩ | ⟨i, hfi, htr, -⟩
      · exact hsub
      · rw [htr]
        intro x hx
        rcases Finset.mem_insert.mp hx with rfl | hx2
        · have hlen := (phaseFireIndex_spec bd _ x hfi).2.1
          rw [hp] at hlen
          exact Finset.mem_range.mpr hlen
        · exact hsub hx2
    have : scanSequence b (h :: t) = scanSequence (checkBossPhaseTransition { b with hp := h }) t := rfl
    rw [this]
    exact ih (checkBossPhaseTransition { b with hp := h }) bd1 hbd1 (hph1.trans hp) hsub1

theorem phaseQualifies_not_mem (phases : List BossPhase) (tr : Finset ℕ) (hp : JsNum)
    (j : ℕ) (h : phaseQualifies phases tr hp j) : j ∉ tr := by
  unfold phaseQualifies at h
  cases hg : phases.get? j with
  | none => rw [hg] at h; exact absurd h not_false
  | some ph => rw [hg] at h; exact h.2

/-- C4: boss phase discipline: a damage-event scan starts at
`currentPhaseIndex`, fires at most the first untriggered phase whose hp
threshold is met (inserting its index and bumping `currentPhaseIndex`), so
`triggeredPhaseIndices` only grows, never repeats an index, gains at most one
index per scan, and over any scan sequence stays bounded by the number of
phases. -/
theorem c4_boss_phase_discipline :
    (∀ (b : Entity) (bd : BossData), b.bossData = some bd →
      ∃ bd', (checkBossPhaseTransition b).bossData = some bd' ∧
        bd'.phases = bd.phases ∧
        bd.triggeredPhases ⊆ bd'.triggeredPhases ∧
        bd'.triggeredPhases.card ≤ bd.triggeredPhases.card + 1 ∧
        (∀ i, phaseFireIndex bd (jdiv b.hp b.maxHp) = some i →
          bd.currentPhase ≤ i ∧ i < bd.phases.length ∧ i ∉ bd.triggeredPhases ∧
          phaseQualifies bd.phases bd.triggeredPhases (jdiv b.hp b.maxHp) i ∧
          (∀ j, bd.currentPhase ≤ j → j < i →
            ¬phaseQualifies bd.phases bd.triggeredPhases (jdiv b.hp b.maxHp) j) ∧
          bd'.triggeredPhases = insert i bd.triggeredPhases ∧ bd'.currentPhase = i + 1)) ∧
    (∀ (phases : List BossPhase) (b : Entity) (hps : List JsNum),
      b.bossData = some ⟨phases, 0, ∅⟩ →
      ∀ bd', (scanSequence b hps).bossData = some bd' →
        bd'.triggeredPhases.card ≤ phases.length) := by
  constructor
  · intro b bd hb
    obtain ⟨bd', h1, h2, hcase⟩ := checkBossPhaseTransition_bossData b bd hb
    rcases hcase with ⟨hnone, rfl⟩ | ⟨i, hfi, htr, hcur⟩
    · refine ⟨bd', h1, h2, subset_refl _, Nat.le_succ _, ?_⟩
      intro i hi
      rw [hnone] at hi
      cases hi
    · refine ⟨bd', h1, h2, ?_, ?_, ?_⟩
      · rw [htr]; exact Finset.subset_insert i _
      · rw [htr]; exact Finset.card_insert_le i _
      · intro i2 hi2
        rw [hfi] at hi2
        injection hi2 with hi2
        subst hi2
        obtain ⟨ha, hbnd, hq, hfirst⟩ := phaseFireIndex_spec bd _ i hfi
        exact ⟨ha, hbnd, phaseQualifies_not_mem _ _ _ _ hq, hq, hfirst, htr, hcur⟩
  · intro phases b hps hb bd' hbd'
    obtain ⟨bd2, h1, h2, h3⟩ := scanSequence_invariant phases hps b ⟨phases, 0, ∅⟩ hb rfl
      (by intro x hx; exact absurd hx (Finset.not_mem_empty x))
    rw [hbd'] at h1
    injection h1 with h1
    subst h1
    calc bd'.triggeredPhases.card ≤ (Finset.range phases.length).card := Finset.card_le_card h3
      _ = phases.length := Finset.card_range _

theorem c4_witness :
    ∃ bd', (checkBossPhaseTransition c4Boss).bossData = some bd' ∧
      bd'.phases = c4BossData.phases ∧
      c4BossData.triggeredPhases ⊆ bd'.triggeredPhases ∧
      bd'.triggeredPhases.card ≤ c4BossData.triggeredPhases.card + 1 := by
  obtain ⟨bd', h1, h2, h3, h4, -⟩ := c4_boss_phase_discipline.1 c4Boss c4BossData rfl
  exact ⟨bd', h1, h2, h3, h4⟩

theorem generateBoss_forest_guardian : generateBoss "forest_guardian" 1.5 = forestGuardianM := by
  norm_num [generateBoss, bossTemplates, forestGuardianM]

/-- C7: counterexample to the claim that a boss skill with positive base
damage always deals `max(1, ⌊…⌋) ≥ 1` damage: `root_entangle` has damage
25 > 0 but no `scalingFactor`, so `calculateDamage` multiplies by `undefined`
and yields `NaN`; the JS guard `damage > 0` is false on `NaN`, so no damage
results. -/
theorem c7_counterexample_root_entangle :
    getBossSkill "root_entangle" = some rootEntangleSkill ∧
    rootEntangleSkill.damage = some 25 ∧
    jlt (jn 0) rootEntangleSkill.damage = true ∧
    calculateDamage (enemyCombatEntity forestGuardianM) demoPlayer rootEntangleSkill (1/2)
      = none ∧
    jle (jn 1) (calculateDamage (enemyCombatEntity forestGuardianM) demoPlayer
      rootEntangleSkill (1/2)) = false := by
  have hmain : calculateDamage (enemyCombatEntity forestGuardianM) demoPlayer
      rootEntangleSkill (1/2) = none := by
    have h1 : hasEffect (enemyCombatEntity forestGuardianM) "strength_boost" = false := rfl
    have h2 : hasEffect (enemyCombatEntity forestGuardianM) "weakness" = false := rfl
    have h2b : hasEffect demoPlayer "defense_boost" = false := rfl
    have h3 : getRelevantAttackStat (enemyCombatEntity forestGuardianM) rootEntangleSkill
        = some 37 := rfl
    have h4 : demoPlayer.defense = some 9 := rfl
    have h5 : rootEntangleSkill.damage = some 25 := rfl
    have h6 : rootEntangleSkill.scalingFactor = none := rfl
    unfold calculateDamage
    rw [h3, h4, h5, h6]
    norm_num [h1, h2, h2b, jadd, jsub, jmul, jdiv, jmin, jmax, jfloor, jn]
  refine ⟨rfl, rfl, ?_, hmain, by rw [hmain]; rfl⟩
  rw [show rootEntangleSkill.damage = some 25 from rfl]
  norm_num [jlt, jn]

theorem jmax_one_floor (x : ℚ) :
    jmax (jn 1) (jfloor (some x)) = some ((max 1 ⌊x⌋ : ℤ) : ℚ) := by
  simp only [jmax, jfloor, jn]
  split_ifs with h
  · have h1 : (1 : ℤ) ≤ ⌊x⌋ := by exact_mod_cast h
    rw [max_eq_right h1]
  · have h1 : ¬(1 : ℤ) ≤ ⌊x⌋ := by exact_mod_cast h
    rw [max_eq_left (by omega)]
    norm_num

/-- C7 (amended): if the skill's base damage is a positive number, its
`scalingFactor` is a number, the caster's relevant attack stat is a number
and the defender's defense is a non-negative number, then `calculateDamage`
returns an integer ≥ 1 (concretely 30 for the fixture at mid variance). -/
theorem c7_calculateDamage_formula (attacker defender : Entity) (skill : Skill) (rv : ℚ)
    (hbase : ∃ q, skill.damage = some q ∧ 0 < q)
    (hsf : ∃ q, skill.scalingFactor = some q)
    (hatk : ∃ q, getRelevantAttackStat attacker skill = some q)
    (hdef : ∃ q, defender.defense = some q ∧ 0 ≤ q) :
    (∃ n : ℤ, calculateDamage attacker defender skill rv = some (n : ℚ) ∧ 1 ≤ n) ∧
    calculateDamage c7Attacker c7Defender c7Skill (1/2) = some 30 := by
  constructor
  · obtain ⟨bq, hbq, -⟩ := hbase
    obtain ⟨sq, hsq⟩ := hsf
    obtain ⟨aq, haq⟩ := hatk
    obtain ⟨dq, hdq, hdnn⟩ := hdef
    have hden : ¬(dq + 100 = 0) := by positivity
    unfold calculateDamage
    rw [hbq, hsq, haq, hdq]
    simp only [jadd, jmul, jsub, jdiv, jn, if_neg hden]
    split_ifs <;>
      exact ⟨max 1 ⌊_⌋, by rw [← jmax_one_floor]; rfl, le_max_left 1 _⟩
  · have h1 : hasEffect c7Attacker "strength_boost" = false := rfl
    have h2 : hasEffect c7Attacker "weakness" = false := rfl
    have h3 : hasEffect c7Defender "defense_boost" = false := rfl
    have h4 : getRelevantAttackStat c7Attacker c7Skill = some 10 := rfl
    have h5 : c7Defender.defense = some 0 := rfl
    have h6 : c7Skill.damage = some 20 := rfl
    have h7 : c7Skill.scalingFactor = some 1 := rfl
    unfold calculateDamage
    rw [h4, h5, h6, h7]
    norm_num [h1, h2, h3, jadd, jsub, jmul, jdiv, jmin, jmax, jfloor, jn]

theorem c7_witness :
    (∃ q, c7Skill.damage = some q ∧ 0 < q) ∧
    (∃ n : ℤ, calculateDamage c7Attacker c7Defender c7Skill (1/2) = some (n : ℚ) ∧ 1 ≤ n) := by
  refine ⟨⟨20, rfl, by norm_num⟩, ?_⟩
  exact (c7_calculateDamage_formula c7Attacker c7Defender c7Skill (1/2)
    ⟨20, rfl, by norm_num⟩ ⟨1, rfl⟩ ⟨10, rfl⟩ ⟨0, rfl, le_refl 0⟩).1

theorem levelUp_experience (c : Character) (d : List ℚ) :
    (levelUpCharacter c d).1.experience = c.experience - c.experienceToNext := rfl

theorem levelUp_toNext (c : Character) (d : List ℚ) :
    (levelUpCharacter c d).1.experienceToNext = floorN ((c.experienceToNext : ℚ) * 1.2) := rfl

theorem floorN_twelve_tenths (t : ℕ) : t ≤ floorN ((t : ℚ) * 1.2) ∧
    (1 ≤ t → 1 ≤ floorN ((t : ℚ) * 1.2)) := by
  have hle : ((t : ℤ) : ℚ) ≤ (t : ℚ) * 1.2 := by
    push_cast
    nlinarith [Nat.cast_nonneg (α := ℚ) t]
  have hfl : (t : ℤ) ≤ ⌊(t : ℚ) * 1.2⌋ := Int.le_floor.mpr hle
  have : t ≤ floorN ((t : ℚ) * 1.2) := by
    unfold floorN
    omega
  exact ⟨this, fun h1 => le_trans h1 this⟩

theorem levelLoop_post (fuel : ℕ) : ∀ (c : Character) (draws : List ℚ),
    1 ≤ c.experienceToNext → c.experience < fuel + c.experienceToNext →
    (levelLoop fuel c draws).1.experience < (levelLoop fuel c draws).1.experienceToNext := by
  induction fuel with
  | zero =>
    intro c draws h1 h2
    simp only [levelLoop]
    omega
  | succ n ih =>
    intro c draws h1 h2
    unfold levelLoop
    by_cases hguard : c.experienceToNext ≤ c.experience
    · rw [if_pos hguard]
      rcases hLU : levelUpCharacter c draws with ⟨c1, d1⟩
      have he : c1.experience = c.experience - c.experienceToNext := by
        rw [← levelUp_experience c draws, hLU]
      have ht : c1.experienceToNext = floorN ((c.experienceToNext : ℚ) * 1.2) := by
        rw [← levelUp_toNext c draws, hLU]
      have hge := (floorN_twelve_tenths c.experienceToNext).1
      have h1' : 1 ≤ c1.experienceToNext := by
        rw [ht]
        exact (floorN_twelve_tenths c.experienceToNext).2 h1
      have h2' : c1.experience < n + c1.experienceToNext := by omega
      exact ih c1 d1 h1' h2'
    · rw [if_neg hguard]
      show c.experience < c.experienceToNext
      omega

/-- C9: `addExperienceToCharacter` loops `levelUpCharacter` until
`experience < experienceToNext`; each level-up consumes four growth draws,
raises the level by one, multiplies the experience threshold by 1.2
(floored), adds `floor(growth + draw)` to each stat (current and base),
raises max/current health and mana by the class per-level amount plus the
vitality or intelligence derived bonus, recomputes attack, speed and defense
from the new stats and level, and unlocks every skill whose required level
(default 1) is met. -/
theorem c9_experience_and_levelup (c : Character) (e : ℕ) (draws : List ℚ)
    (h1 : 1 ≤ c.experienceToNext) :
    ((addExperienceToCharacter c e draws).1.experience
        < (addExperienceToCharacter c e draws).1.experienceToNext) ∧
    (∀ (c0 : Character) (d0 d1 d2 d3 : ℚ) (rest : List ℚ),
      ((levelUpCharacter c0 (d0 :: d1 :: d2 :: d3 :: rest)).2 = rest) ∧
      ((levelUpCharacter c0 (d0 :: d1 :: d2 :: d3 :: rest)).1.level = c0.level + 1) ∧
      ((levelUpCharacter c0 (d0 :: d1 :: d2 :: d3 :: rest)).1.experienceToNext
          = floorN ((c0.experienceToNext : ℚ) * 1.2)) ∧
      ((levelUpCharacter c0 (d0 :: d1 :: d2 :: d3 :: rest)).1.strength
          = c0.strength + floorN (c0.growthStrength + d0)) ∧
      ((levelUpCharacter c0 (d0 :: d1 :: d2 :: d3 :: rest)).1.baseStrength
          = c0.baseStrength + floorN (c0.growthStrength + d0)) ∧
      ((levelUpCharacter c0 (d0 :: d1 :: d2 :: d3 :: rest)).1.agility
          = c0.agility + floorN (c0.growthAgility + d1)) ∧
      ((levelUpCharacter c0 (d0 :: d1 :: d2 :: d3 :: rest)).1.baseAgility
          = c0.baseAgility + floorN (c0.growthAgility + d1)) ∧
      ((levelUpCharacter c0 (d0 :: d1 :: d2 :: d3 :: rest)).1.intelligence
          = c0.intelligence + floorN (c0.growthIntelligence + d2)) ∧
      ((levelUpCharacter c0 (d0 :: d1 :: d2 :: d3 :: rest)).1.baseIntelligence
          = c0.baseIntelligence + floorN (c0.growthIntelligence + d2)) ∧
      ((levelUpCharacter c0 (d0 :: d1 :: d2 :: d3 :: rest)).1.vitality
          = c0.vitality + floorN (c0.growthVitality + d3)) ∧
      ((levelUpCharacter c0 (d0 :: d1 :: d2 :: d3 :: rest)).1.baseVitality
          = c0.baseVitality + floorN (c0.growthVitality + d3)) ∧
      ((levelUpCharacter c0 (d0 :: d1 :: d2 :: d3 :: rest)).1.maxHealth
          = c0.maxHealth + (((classTemplates c0.className).getD warriorClassTemplate).healthPerLevel
            + floorN (((c0.vitality + floorN (c0.growthVitality + d3) : ℕ) : ℚ) * 0.5))) ∧
      ((levelUpCharacter c0 (d0 :: d1 :: d2 :: d3 :: rest)).1.hp
          = c0.hp + (((classTemplates c0.className).getD warriorClassTemplate).healthPerLevel
            + floorN (((c0.vitality + floorN (c0.growthVitality + d3) : ℕ) : ℚ) * 0.5))) ∧
      ((levelUpCharacter c0 (d0 :: d1 :: d2 :: d3 :: rest)).1.maxMana
          = c0.maxMana + (((classTemplates c0.className).getD warriorClassTemplate).manaPerLevel
            + floorN (((c0.intelligence + floorN (c0.growthIntelligence + d2) : ℕ) : ℚ) * 0.3))) ∧
      ((levelUpCharacter c0 (d0 :: d1 :: d2 :: d3 :: rest)).1.mana
          = c0.mana + (((classTemplates c0.className).getD warriorClassTemplate).manaPerLevel
            + floorN (((c0.intelligence + floorN (c0.growthIntelligence + d2) : ℕ) : ℚ) * 0.3))) ∧
      ((levelUpCharacter c0 (d0 :: d1 :: d2 :: d3 :: rest)).1.attack
          = (c0.strength + floorN (c0.growthStrength + d0))
            + floorN (((c0.level + 1 : ℕ) : ℚ) * 0.5)) ∧
      ((levelUpCharacter c0 (d0 :: d1 :: d2 :: d3 :: rest)).1.speed
          = (c0.agility + floorN (c0.growthAgility + d1))
            + floorN (((c0.level + 1 : ℕ) : ℚ) * 0.2)) ∧
      (c0.factionDefenseBonus = none →
        (levelUpCharacter c0 (d0 :: d1 :: d2 :: d3 :: rest)).1.defense
          = floorN (((c0.vitality + floorN (c0.growthVitality + d3) : ℕ) : ℚ) * 0.8)
            + floorN (((c0.level + 1 : ℕ) : ℚ) * 0.3)) ∧
      (∀ sk ∈ (levelUpCharacter c0 (d0 :: d1 :: d2 :: d3 :: rest)).1.skills,
        sk.unlocked = true)) := by
  constructor
  · unfold addExperienceToCharacter
    exact levelLoop_post _ _ draws h1 (by omega)
  · intro c0 d0 d1 d2 d3 rest
    refine ⟨rfl, rfl, rfl, rfl, rfl, rfl, rfl, rfl, rfl, rfl, rfl, rfl, rfl, rfl, rfl,
      rfl, rfl, ?_, ?_⟩
    · intro hfb
      simp [levelUpCharacter, recalculateCharacterStats, checkSkillUnlocks, hfb, nextDraw]
    · intro sk hsk
      simp only [levelUpCharacter, recalculateCharacterStats, checkSkillUnlocks,
        nextDraw, requiredLevelOf] at hsk
      simp only [List.mem_map] at hsk
      obtain ⟨sk0, -, rfl⟩ := hsk
      split_ifs with hu
      · rfl
      · by_cases h : sk0.unlocked = true
        · exact h
        · exact absurd (And.intro h (by omega)) hu

theorem c9_witness :
    1 ≤ warriorCharacter.experienceToNext ∧
    ((addExperienceToCharacter warriorCharacter 250
        [1/2, 1/2, 1/2, 1/2, 1/2, 1/2, 1/2, 1/2]).1.experience
      < (addExperienceToCharacter warriorCharacter 250
        [1/2, 1/2, 1/2, 1/2, 1/2, 1/2, 1/2, 1/2]).1.experienceToNext) :=
  ⟨by norm_num [warriorCharacter],
   (c9_experience_and_levelup warriorCharacter 250
      [1/2, 1/2, 1/2, 1/2, 1/2, 1/2, 1/2, 1/2]
      (by norm_num [warriorCharacter])).1⟩

theorem okDraws_nextDraw (l : List ℚ) (h : okDraws l) :
    (0 ≤ (nextDraw l).1 ∧ (nextDraw l).1 < 1) ∧ okDraws (nextDraw l).2 := by
  cases l with
  | nil => exact ⟨by norm_num [nextDraw], by intro d hd; simp [nextDraw] at hd⟩
  | cons a t =>
    refine ⟨h a (by simp), ?_⟩
    intro d hd
    exact h d (List.mem_cons_of_mem a hd)

theorem randomIntN_bounds (lo hi : ℕ) (d : ℚ) (h0 : 0 ≤ d) (h1 : d < 1)
    (hlh : lo ≤ hi) : lo ≤ randomIntN lo hi d ∧ randomIntN lo hi d ≤ hi := by
  have hk : (0 : ℚ) < (hi : ℚ) - lo + 1 := by
    have : (lo : ℚ) ≤ hi := by exact_mod_cast hlh
    linarith
  have hnn : 0 ≤ d * ((hi : ℚ) - lo + 1) := mul_nonneg h0 hk.le
  have hfl0 : 0 ≤ ⌊d * ((hi : ℚ) - lo + 1)⌋ := Int.floor_nonneg.mpr hnn
  have hlt : d * ((hi : ℚ) - lo + 1) < ((hi - lo + 1 : ℕ) : ℚ) := by
    have hc : ((hi - lo + 1 : ℕ) : ℚ) = (hi : ℚ) - lo + 1 := by
      push_cast [hlh]
      ring
    rw [hc]
    nlinarith
  have hflu : ⌊d * ((hi : ℚ) - lo + 1)⌋ < ((hi - lo + 1 : ℕ) : ℤ) :=
    Int.floor_lt.mpr (by exact_mod_cast hlt)
  unfold randomIntN
  omega

theorem randomChoice_mem (l : List String) (d : ℚ) (hne : l ≠ []) (h0 : 0 ≤ d)
    (h1 : d < 1) : randomChoice l d ∈ l := by
  have hlen : 0 < l.length := List.length_pos.mpr hne
  have hnn : 0 ≤ ⌊d * (l.length : ℚ)⌋ :=
    Int.floor_nonneg.mpr (mul_nonneg h0 (by positivity))
  have hlt : ⌊d * (l.length : ℚ)⌋ < (l.length : ℤ) := by
    apply Int.floor_lt.mpr
    push_cast
    nlinarith [show (0 : ℚ) < (l.length : ℚ) from by exact_mod_cast hlen]
  have hidx : (⌊d * (l.length : ℚ)⌋).toNat < l.length := by omega
  unfold randomChoice
  rw [List.getD_eq_getElem l "" hidx]
  exact List.getElem_mem hidx

theorem weightedRandomChoice_ne_boss (w : NodeTypeWeights) (hb : w.boss = 0)
    (d : ℚ) : weightedRandomChoice w d ≠ "boss" := by
  unfold weightedRandomChoice weightEntries
  simp only [List.foldl, hb]
  intro h
  simp only [wrcWalk] at h
  split_ifs at h <;> first | (exact absurd h (by decide)) | linarith

theorem selectNodeType_boss (i L : ℕ) (w : NodeTypeWeights) (d : ℚ) :
    (selectNodeType i L w d).2.boss = w.boss := by
  simp only [selectNodeType]
  split_ifs <;> rfl

theorem selectNodeType_ne_boss (i L : ℕ) (w : NodeTypeWeights) (d : ℚ)
    (hb : w.boss = 0) : (selectNodeType i L w d).1 ≠ "boss" := by
  simp only [selectNodeType]
  split_ifs <;> (apply weightedRandomChoice_ne_boss; exact hb)

theorem generateBossNode_type (tmpl : RegionTemplate) (key : String) (diff : ℚ)
    (dr : List ℚ) : (generateBossNode tmpl key diff dr).1.type = "boss" := rfl

theorem generateRegularNode_eval (tmpl : RegionTemplate) (key : String)
    (diff : ℚ) (i L : ℕ) (w : NodeTypeWeights) (dr : List ℚ) :
    (generateRegularNode tmpl key diff i L w dr).1.type
        = (selectNodeType i L w (dr.headD 0)).1 ∧
    (generateRegularNode tmpl key diff i L w dr).2.1
        = (selectNodeType i L w (dr.headD 0)).2 := by
  unfold generateRegularNode
  simp only [nextDraw]
  exact ⟨trivial, trivial⟩

theorem genRegionNodes_no_boss (tmpl : RegionTemplate) (key : String) (diff : ℚ)
    (L : ℕ) : ∀ (n i : ℕ) (w : NodeTypeWeights) (dr : List ℚ), w.boss = 0 →
    (genRegionNodes tmpl key diff false L n i w dr).2.1.boss = 0 ∧
    ∀ nd ∈ (genRegionNodes tmpl key diff false L n i w dr).1, nd.type ≠ "boss" := by
  intro n
  induction n with
  | zero =>
    intro i w dr hb
    exact ⟨hb, by intro nd hnd; simp [genRegionNodes] at hnd⟩
  | succ n ih =>
    intro i w dr hb
    unfold genRegionNodes
    rw [if_neg (by rintro ⟨hh, -⟩; simp at hh)]
    rcases hR : generateRegularNode tmpl key diff i L w dr with ⟨nd, w2, dr2⟩
    simp only []
    have hev := generateRegularNode_eval tmpl key diff i L w dr
    rw [hR] at hev
    obtain ⟨hty, hw2⟩ := hev
    have hndty : nd.type ≠ "boss" := by
      rw [show nd.type = (nd, w2, dr2).1.type from rfl, hty]
      exact selectNodeType_ne_boss i L w (dr.headD 0) hb
    have hw2b : w2.boss = 0 := by
      rw [show w2 = (nd, w2, dr2).2.1 from rfl, hw2, selectNodeType_boss]
      exact hb
    obtain ⟨ihb, ihm⟩ := ih (i + 1) w2 dr2 hw2b
    rcases hRec : genRegionNodes tmpl key diff false L n (i + 1) w2 dr2 with ⟨ns, w3, dr3⟩
    simp only []
    rw [hRec] at ihb ihm
    refine ⟨ihb, ?_⟩
    intro x hx
    rcases List.mem_cons.mp hx with h | h
    · rw [h]
      exact hndty
    · exact ihm x h

theorem genRegionNodes_last_types (tmpl : RegionTemplate) (key : String)
    (diff : ℚ) (L : ℕ) : ∀ (n i : ℕ) (w : NodeTypeWeights) (dr : List ℚ),
    w.boss = 0 → i + n = L → 1 ≤ n →
    ((genRegionNodes tmpl key diff true L n i w dr).1.map
        (fun nd => nd.type)).getLast? = some "boss" ∧
    ((genRegionNodes tmpl key diff true L n i w dr).1.map
        (fun nd => nd.type)).count "boss" = 1 := by
  intro n
  induction n with
  | zero =>
    intro i w dr hb hiL hn
    omega
  | succ n ih =>
    intro i w dr hb hiL hn
    unfold genRegionNodes
    by_cases hz : n = 0
    · subst hz
      rw [if_pos ⟨rfl, by omega⟩]
      rcases hB : generateBossNode tmpl key diff dr with ⟨nd, dr2⟩
      simp only []
      have hty : nd.type = "boss" := by
        rw [show nd.type = (nd, dr2).1.type from rfl, ← hB, generateBossNode_type]
      rcases hRec : genRegionNodes tmpl key diff true L 0 (i + 1) w dr2 with ⟨ns, w3, dr3⟩
      simp only []
      have hns : ns = [] := by
        have : genRegionNodes tmpl key diff true L 0 (i + 1) w dr2
            = ([], w, dr2) := rfl
        rw [hRec] at this
        exact congrArg (fun p => p.1) this
      subst hns
      constructor <;> simp [hty]
    · rw [if_neg (by rintro ⟨-, hh⟩; omega)]
      rcases hR : generateRegularNode tmpl key diff i L w dr with ⟨nd, w2, dr2⟩
      simp only []
      have hev := generateRegularNode_eval tmpl key diff i L w dr
      rw [hR] at hev
      obtain ⟨hty, hw2⟩ := hev
      have hndty : nd.type ≠ "boss" := by
        rw [show nd.type = (nd, w2, dr2).1.type from rfl, hty]
        exact selectNodeType_ne_boss i L w (dr.headD 0) hb
      have hw2b : w2.boss = 0 := by
        rw [show w2 = (nd, w2, dr2).2.1 from rfl, hw2, selectNodeType_boss]
        exact hb
      obtain ⟨ihlast, ihcount⟩ := ih (i + 1) w2 dr2 hw2b (by omega) (by omega)
      rcases hRec : genRegionNodes tmpl key diff true L n (i + 1) w2 dr2 with ⟨ns, w3, dr3⟩
      simp only []
      rw [hRec] at ihlast ihcount
      have hne : ns.map (fun nd => nd.type) ≠ [] := by
        intro hh
        rw [hh] at ihlast
        simp at ihlast
      constructor
      · rw [List.map_cons]
        cases ns with
        | nil => simp at ihlast
        | cons y ys =>
          rw [List.map_cons] at ihlast ⊢
          rw [List.getLast?_cons_cons]
          exact ihlast
      · rw [List.map_cons, List.count_cons]
        have : ¬ ({ nd with localIndex := i }).type = "boss" := hndty
        simp [this, ihcount]

theorem generateRegion_not_last (k : String) (idx t : ℕ) (w : NodeTypeWeights)
    (dr : List ℚ) (hb : w.boss = 0) (hne : idx ≠ t - 1) :
    (generateRegion k idx t w dr).1.key = k ∧
    (generateRegion k idx t w dr).2.1.boss = 0 ∧
    ∀ nd ∈ (generateRegion k idx t w dr).1.nodes, nd.type ≠ "boss" := by
  unfold generateRegion
  simp only [nextDraw, eq_false hne, if_false, decide_False]
  have hspec := genRegionNodes_no_boss (regionsTable k) k
    ((regionsTable k).difficulty + (idx : ℚ) * 0.2)
    (randomIntN 4 7 (dr.headD 0)) (randomIntN 4 7 (dr.headD 0)) 0 w dr.tail hb
  exact ⟨trivial, hspec.1, hspec.2⟩

theorem generateRegion_last (k : String) (idx t : ℕ) (w : NodeTypeWeights)
    (dr : List ℚ) (hb : w.boss = 0) (heq : idx = t - 1) :
    (generateRegion k idx t w dr).1.key = k ∧
    (((generateRegion k idx t w dr).1.nodes.map
        (fun nd => nd.type)).getLast? = some "boss") ∧
    (((generateRegion k idx t w dr).1.nodes.map
        (fun nd => nd.type)).count "boss" = 1) := by
  unfold generateRegion
  simp only [nextDraw, eq_true heq, if_true, decide_True]
  have hspec := genRegionNodes_last_types (regionsTable k) k
    ((regionsTable k).difficulty + (idx : ℚ) * 0.2)
    (randomIntN 4 7 (dr.headD 0) + 1) (randomIntN 4 7 (dr.headD 0) + 1) 0 w dr.tail
    hb (by omega) (by omega)
  exact ⟨trivial, hspec.1, hspec.2⟩

theorem genRunRegionsAux_spec (total : ℕ) :
    ∀ (keys : List String) (idx : ℕ) (w : NodeTypeWeights) (dr : List ℚ),
    w.boss = 0 → idx + keys.length = total → 1 ≤ keys.length →
    ((genRunRegionsAux total keys idx w dr).1.map RegionM.key = keys) ∧
    ∃ pre lastRg, (genRunRegionsAux total keys idx w dr).1 = pre ++ [lastRg] ∧
      (∀ rg ∈ pre, ∀ nd ∈ rg.nodes, nd.type ≠ "boss") ∧
      ((lastRg.nodes.map (fun nd => nd.type)).getLast? = some "boss") ∧
      ((lastRg.nodes.map (fun nd => nd.type)).count "boss" = 1) := by
  intro keys
  induction keys with
  | nil =>
    intro idx w dr hb hlen hpos
    exact absurd hpos (by simp)
  | cons k rest ih =>
    intro idx w dr hb hlen hpos
    unfold genRunRegionsAux
    simp only [List.length_cons] at hlen
    by_cases hrest : rest = []
    · subst hrest
      simp only [List.length_nil] at hlen
      have hidx : idx = total - 1 := by omega
      have h1 := generateRegion_last k idx total w dr hb hidx
      rcases hR : generateRegion k idx total w dr with ⟨rg, w2, dr2⟩
      simp only []
      rw [hR] at h1
      have hk : rg.key = k := h1.1
      simp only [genRunRegionsAux]
      refine ⟨by simp [hk], [], rg, by simp, by simp, h1.2.1, h1.2.2⟩
    · have hrl : 1 ≤ rest.length := List.length_pos.mpr hrest
      have hne2 : idx ≠ total - 1 := by omega
      have h1 := generateRegion_not_last k idx total w dr hb hne2
      rcases hR : generateRegion k idx total w dr with ⟨rg, w2, dr2⟩
      simp only []
      rw [hR] at h1
      have hk : rg.key = k := h1.1
      have hw2 : w2.boss = 0 := h1.2.1
      obtain ⟨ihmap, pre, lastRg, ihdec, ihpre, ihl1, ihl2⟩ :=
        ih (idx + 1) w2 dr2 hw2 (by omega) hrl
      rcases hA : genRunRegionsAux total rest (idx + 1) w2 dr2 with ⟨rs, w3, dr3⟩
      simp only []
      rw [hA] at ihmap ihdec
      have ihmapr : rs.map RegionM.key = rest := ihmap
      have ihdecr : rs = pre ++ [lastRg] := ihdec
      refine ⟨?_, rg :: pre, lastRg, ?_, ?_, ihl1, ihl2⟩
      · rw [List.map_cons, hk, ihmapr]
      · rw [ihdecr]
        rfl
      · intro x hx
        rcases List.mem_cons.mp hx with h | h
        · intro nd hnd
          exact h1.2.2 nd (by rw [h] at hnd; exact hnd)
        · exact ihpre x h

theorem map_type_mapIdx (l : List NodeM) :
    ∀ (f : ℕ → NodeM → NodeM), (∀ j nd, (f j nd).type = nd.type) →
    (l.mapIdx f).map (fun nd => nd.type) = l.map (fun nd => nd.type) := by
  induction l with
  | nil => intro f hf; simp
  | cons a t ih =>
    intro f hf
    rw [List.mapIdx_cons, List.map_cons, List.map_cons, hf,
      ih (fun i => f (i + 1)) (fun j nd => hf (j + 1) nd)]

theorem flattenRegions_spec : ∀ (rgs : List RegionM) (ri st : ℕ),
    ((flattenRegions rgs ri st).1.map RegionM.key = rgs.map RegionM.key) ∧
    ((flattenRegions rgs ri st).1.map (fun rg => rg.nodes.map (fun nd => nd.type))
        = rgs.map (fun rg => rg.nodes.map (fun nd => nd.type))) ∧
    ((flattenRegions rgs ri st).2.map (fun nd => nd.type)
        = (rgs.map (fun rg => rg.nodes.map (fun nd => nd.type))).flatten) := by
  intro rgs
  induction rgs with
  | nil =>
    intro ri st
    refine ⟨rfl, rfl, by simp [flattenRegions]⟩
  | cons rg rest ih =>
    intro ri st
    unfold flattenRegions
    obtain ⟨ih1, ih2, ih3⟩ := ih (ri + 1)
      (st + (rg.nodes.mapIdx
        (fun j nd => { nd with globalIndex := st + j, regionIndex := ri })).length)
    have hmi := map_type_mapIdx rg.nodes
      (fun j nd => { nd with globalIndex := st + j, regionIndex := ri })
      (fun j nd => rfl)
    refine ⟨?_, ?_, ?_⟩
    · simp only [List.map_cons, ih1]
    · simp only [List.map_cons, ih2, hmi]
    · simp only [List.map_append, List.map_cons, List.flatten_cons, ih3, hmi]

theorem typesJoin_count (ll : List (List String)) :
    ll.flatten.count "boss" = (ll.map (fun l => l.count "boss")).sum := by
  induction ll with
  | nil => simp
  | cons l L ih => simp [List.flatten_cons, List.count_append, ih]

theorem typesJoin_getLast (pres : List (List String)) (lastl : List String)
    (h : lastl.getLast? = some "boss") :
    ((pres ++ [lastl]).flatten).getLast? = some "boss" := by
  induction pres with
  | nil =>
    simpa using h
  | cons p ps ih =>
    have hne : (ps ++ [lastl]).flatten ≠ [] := by
      intro hh
      rw [hh] at ih
      simp at ih
    rw [List.cons_append, List.flatten_cons, List.getLast?_append_of_ne_nil _ hne]
    exact ih

theorem regionKeys_nodup : regionKeys.Nodup := by decide

theorem remaining_ne_nil (sel : List String)
    (hlt : sel.length < regionKeys.length) :
    regionKeys.filter (fun r => ¬sel.contains r) ≠ [] := by
  intro hemp
  have hall : regionKeys ⊆ sel := by
    intro x hx
    by_contra hxn
    have hmem : x ∈ regionKeys.filter (fun r => ¬sel.contains r) := by
      rw [List.mem_filter]
      exact ⟨hx, by simpa using hxn⟩
    rw [hemp] at hmem
    simp at hmem
  have := (regionKeys_nodup.subperm hall).length_le
  omega

theorem selectRegionsLoop_spec : ∀ (c : ℕ) (sel : List String) (dr : List ℚ),
    okDraws dr → sel.Nodup → sel ⊆ regionKeys →
    ((selectRegionsLoop c sel dr).1.length
        = min (sel.length + c) regionKeys.length) ∧
    ∃ ext, (selectRegionsLoop c sel dr).1 = sel ++ ext := by
  intro c
  induction c with
  | zero =>
    intro sel dr hok hnd hsub
    have hle : sel.length ≤ regionKeys.length := (hnd.subperm hsub).length_le
    refine ⟨?_, [], by simp [selectRegionsLoop]⟩
    show sel.length = min (sel.length + 0) regionKeys.length
    omega
  | succ c ih =>
    intro sel dr hok hnd hsub
    unfold selectRegionsLoop
    have hle : sel.length ≤ regionKeys.length := (hnd.subperm hsub).length_le
    by_cases hlt : sel.length < regionKeys.length
    · rw [if_pos hlt]
      simp only [nextDraw]
      have hdz := okDraws_nextDraw dr hok
      have hrne := remaining_ne_nil sel hlt
      have hchosen : randomChoice (regionKeys.filter (fun r => ¬sel.contains r))
            (dr.headD 0)
          ∈ regionKeys.filter (fun r => ¬sel.contains r) :=
        randomChoice_mem _ _ hrne hdz.1.1 hdz.1.2
      have hcmem : randomChoice (regionKeys.filter (fun r => ¬sel.contains r))
            (dr.headD 0) ∈ regionKeys :=
        List.mem_of_mem_filter hchosen
      have hcnot : randomChoice (regionKeys.filter (fun r => ¬sel.contains r))
            (dr.headD 0) ∉ sel := by
        have := (List.mem_filter.mp hchosen).2
        simpa using this
      have hnd' : (sel ++ [randomChoice (regionKeys.filter (fun r => ¬sel.contains r))
            (dr.headD 0)]).Nodup := by
        rw [List.nodup_append]
        refine ⟨hnd, List.nodup_singleton _, fun a ha hb => ?_⟩
        rw [List.mem_singleton] at hb
        rw [hb] at ha
        exact hcnot ha
      have hsub' : sel ++ [randomChoice (regionKeys.filter (fun r => ¬sel.contains r))
            (dr.headD 0)] ⊆ regionKeys := by
        intro x hx
        rcases List.mem_append.mp hx with h | h
        · exact hsub h
        · rw [List.mem_singleton] at h
          rw [h]
          exact hcmem
      obtain ⟨hlen, ext, hext⟩ := ih
        (sel ++ [randomChoice (regionKeys.filter (fun r => ¬sel.contains r))
          (dr.headD 0)]) dr.tail hdz.2 hnd' hsub'
      refine ⟨?_, [randomChoice (regionKeys.filter (fun r => ¬sel.contains r))
          (dr.headD 0)] ++ ext, ?_⟩
      · rw [hlen]
        simp only [List.length_append, List.length_singleton]
        omega
      · rw [hext]
        simp
    · rw [if_neg hlt]
      refine ⟨?_, [], by simp⟩
      show sel.length = min (sel.length + (c + 1)) regionKeys.length
      omega

/-- C6: a generated run has exactly the requested number of regions (the
internal `randomInt(2, 4)` count), hence between 2 and 4; the first region is
always `forest`; and exactly one node of the whole flattened map has type
`boss` — it is the last node of the last region and the globally last node.
Needs only in-range draws and boss weight 0 in the catalog, as shipped. -/
theorem c6_run_shape (w : NodeTypeWeights) (draws : List ℚ)
    (hok : okDraws draws) (hb : w.boss = 0) :
    ((generateRun w draws).1.regions.length
        = randomIntN 2 4 ((draws.tail).headD 0)) ∧
    (2 ≤ (generateRun w draws).1.regions.length) ∧
    ((generateRun w draws).1.regions.length ≤ 4) ∧
    ((generateRun w draws).1.regions.head?.map RegionM.key = some "forest") ∧
    (((generateRun w draws).1.nodes.map (fun nd => nd.type)).count "boss" = 1) ∧
    (((generateRun w draws).1.nodes.map (fun nd => nd.type)).getLast?
        = some "boss") ∧
    ((generateRun w draws).1.regions.getLast?.map
        (fun rg => (rg.nodes.map (fun nd => nd.type)).getLast?)
      = some (some "boss")) := by
  have hok1 := okDraws_nextDraw draws hok
  have hok2 := okDraws_nextDraw draws.tail hok1.2
  have hrc := randomIntN_bounds 2 4 ((draws.tail).headD 0) hok2.1.1 hok2.1.2
    (by norm_num)
  unfold generateRun
  simp only [nextDraw]
  rcases hSel : selectRegions (randomIntN 2 4 ((draws.tail).headD 0))
      (draws.tail.tail) with ⟨selected, dr3⟩
  simp only []
  have hLoop : selectRegionsLoop (randomIntN 2 4 ((draws.tail).headD 0) - 1)
      ["forest"] (draws.tail.tail) = (selected, dr3) := hSel
  obtain ⟨hlen0, ext, hext0⟩ := selectRegionsLoop_spec
    (randomIntN 2 4 ((draws.tail).headD 0) - 1) ["forest"] (draws.tail.tail)
    hok2.2 (by decide) (by intro a ha; rw [List.mem_singleton] at ha; rw [ha]; decide)
  rw [hLoop] at hlen0 hext0
  have hselLen : selected.length = randomIntN 2 4 ((draws.tail).headD 0) := by
    have h1 : selected.length
        = min (["forest"].length + (randomIntN 2 4 ((draws.tail).headD 0) - 1))
            regionKeys.length := hlen0
    have h4 : regionKeys.length = 4 := rfl
    simp only [List.length_singleton] at h1
    omega
  have hselHead : selected = "forest" :: ext := hext0
  obtain ⟨hmap, pre, lastRg, hdec, hpre, hl1, hl2⟩ :=
    genRunRegionsAux_spec (randomIntN 2 4 ((draws.tail).headD 0)) selected 0 w dr3
      hb (by omega) (by omega)
  rcases hAux : genRunRegionsAux (randomIntN 2 4 ((draws.tail).headD 0))
      selected 0 w dr3 with ⟨regions0, w2, dr4⟩
  simp only []
  rw [hAux] at hmap hdec
  have hmap' : regions0.map RegionM.key = selected := hmap
  have hdec' : regions0 = pre ++ [lastRg] := hdec
  obtain ⟨f1, f2, f3⟩ := flattenRegions_spec regions0 0 0
  rcases hFl : flattenRegions regions0 0 0 with ⟨regions, nodes⟩
  simp only []
  rw [hFl] at f1 f2 f3
  have f1' : regions.map RegionM.key = regions0.map RegionM.key := f1
  have f2' : regions.map (fun rg => rg.nodes.map (fun nd => nd.type))
      = regions0.map (fun rg => rg.nodes.map (fun nd => nd.type)) := f2
  have f3' : nodes.map (fun nd => nd.type)
      = (regions0.map (fun rg => rg.nodes.map (fun nd => nd.type))).flatten := f3
  have hrkey : regions.map RegionM.key = selected := by rw [f1', hmap']
  have hrlen : regions.length = randomIntN 2 4 ((draws.tail).headD 0) := by
    have := congrArg List.length hrkey
    rw [List.length_map] at this
    omega
  refine ⟨hrlen, by omega, by omega, ?_, ?_, ?_, ?_⟩
  · rw [← List.head?_map, hrkey, hselHead]
    rfl
  · rw [f3', hdec', typesJoin_count, List.map_append, List.map_append,
      List.sum_append]
    have hz : ∀ x ∈ ((pre.map (fun rg => rg.nodes.map (fun nd => nd.type))).map
        (fun l => l.count "boss")), x = 0 := by
      intro x hx
      rw [List.mem_map] at hx
      obtain ⟨l, hl, rfl⟩ := hx
      rw [List.mem_map] at hl
      obtain ⟨rg, hrg, rfl⟩ := hl
      rw [List.count_eq_zero]
      intro hcon
      rw [List.mem_map] at hcon
      obtain ⟨nd, hnd, hndty⟩ := hcon
      exact hpre rg hrg nd hnd hndty
    rw [List.sum_eq_zero hz]
    simp [hl2]
  · rw [f3', hdec', List.map_append]
    simp only [List.map_singleton]
    exact typesJoin_getLast _ _ hl1
  · have h5 : regions.map (fun rg => rg.nodes.map (fun nd => nd.type))
        = (pre.map (fun rg => rg.nodes.map (fun nd => nd.type)))
          ++ [lastRg.nodes.map (fun nd => nd.type)] := by
      rw [f2', hdec', List.map_append, List.map_singleton]
    have h6 : (regions.map (fun rg => rg.nodes.map (fun nd => nd.type))).getLast?
        = some (lastRg.nodes.map (fun nd => nd.type)) := by
      rw [h5, List.getLast?_concat]
    rw [List.getLast?_map] at h6
    obtain ⟨rg, hrg, hrg2⟩ := Option.map_eq_some'.mp h6
    rw [hrg]
    simp only [Option.map_some']
    rw [hrg2, hl1]

theorem c6_witness :
    okDraws ([] : List ℚ) ∧ initialNodeTypeWeights.boss = 0 ∧
    (((generateRun initialNodeTypeWeights []).1.regions.length
        = randomIntN 2 4 ((([] : List ℚ).tail).headD 0)) ∧
    (2 ≤ (generateRun initialNodeTypeWeights []).1.regions.length) ∧
    ((generateRun initialNodeTypeWeights []).1.regions.length ≤ 4) ∧
    ((generateRun initialNodeTypeWeights []).1.regions.head?.map RegionM.key
        = some "forest") ∧
    (((generateRun initialNodeTypeWeights []).1.nodes.map
        (fun nd => nd.type)).count "boss" = 1) ∧
    (((generateRun initialNodeTypeWeights []).1.nodes.map
        (fun nd => nd.type)).getLast? = some "boss") ∧
    ((generateRun initialNodeTypeWeights []).1.regions.getLast?.map
        (fun rg => (rg.nodes.map (fun nd => nd.type)).getLast?)
      = some (some "boss"))) :=
  ⟨by intro d hd; simp at hd, rfl,
   c6_run_shape initialNodeTypeWeights [] (by intro d hd; simp at hd) rfl⟩

/-- C10: `applySkillResult` never touches the caster's own status-effect
list — every successfully rolled status effect lands on the opponent.  In
particular the self-buff-looking Defensive Stance (defense_boost, chance
1.0) used by the player puts `("defense_boost", 3)` on the enemy while the
player's list stays empty. -/
theorem c10_status_to_opponent_only :
    (∀ (s : Session) (cs : Side) (idx : Option ℕ) (skill : Skill)
        (res : SkillResult) (draws : List ℚ) (c c' : Entity),
      getSide s cs = some c →
      getSide (applySkillResult s cs idx skill res draws).1 cs = some c' →
      c'.statusEffects = c.statusEffects) ∧
    demoPlayer.skills[2]? = some dsI ∧
    dsI.statusEffects = [⟨"defense_boost", 3, 1.0⟩] ∧
    useSkill demoSession 2 [1/2, 3/10] = .ok (true, c10End, []) ∧
    (c10End.enemy.map Entity.statusEffects) = some [("defense_boost", 3)] ∧
    (c10End.player.map Entity.statusEffects) = some [] := by
  obtain ⟨h1, h2, h3, h4, h5⟩ := c10_concrete
  exact ⟨applySkillResult_caster_statusEffects, h1, h2, h3, h4, h5⟩

theorem c10_witness :
    getSide demoSessionLit .player = some demoPlayer ∧
    c10Player.statusEffects = demoPlayer.statusEffects :=
  ⟨rfl, c10_status_to_opponent_only.1 demoSessionLit .player (some 2) dsI
      ⟨jn 0, jn 0, [⟨"defense_boost", 3⟩], false, true⟩ [3/10] demoPlayer c10Player
      rfl (by rw [applySkillResult_ds]; rfl)⟩
